import Mathlib

/-!
Verification development for the Armada submit server
(internal/armada/server/submit.go and its helpers).

The Go source is embedded shallowly: pure helpers become Lean functions,
stateful collaborator calls (queue registry, job store, event sink,
scheduling-info oracle) are passed in explicitly as oracle values or
functions, and the gRPC status codes become an inductive type.
Machine strings are Lean Strings; label and annotation values that the
enrichment step rewrites are manipulated as lists of characters.
-/

deriving instance DecidableEq for Except

namespace Armada

/-! ## Global permissions (internal/armada/permissions) -/

/-- Named global capabilities, one per constant of the permissions package. -/
inductive Permission
  | submitAnyJobs
  | submitJobs
  | cancelAnyJobs
  | cancelJobs
  | reprioritizeAnyJobs
  | reprioritizeJobs
  | watchAllEvents
  | watchEvents
  | createQueue
  | deleteQueue
deriving DecidableEq, Repr

/-- The authenticated caller identity carried by the request context
(common/auth/authorization principal). -/
structure Principal where
  name : String
  groups : List String
  scopes : List String
  claims : List String
deriving DecidableEq, Repr

/-- PrincipalPermissionChecker: three allow-maps from permission to the
scopes, groups and claims that grant it.  A Go map with a missing key
behaves as an empty list, so total functions into lists are faithful. -/
structure PrincipalPermissionChecker where
  permissionGroupMap : Permission → List String
  permissionScopeMap : Permission → List String
  permissionClaimMap : Permission → List String

/-- hasPermission helper: some allowed value for the permission satisfies
the assertion. -/
def hasPermission (perm : Permission) (permMap : Permission → List String)
    (a : String → Bool) : Bool :=
  (permMap perm).any a

/-- UserHasPermission: the principal has a scope, is in a group, or holds a
claim listed for the permission. -/
def userHasPermission (checker : PrincipalPermissionChecker) (p : Principal)
    (perm : Permission) : Bool :=
  hasPermission perm checker.permissionScopeMap (fun scope => p.scopes.contains scope) ||
  hasPermission perm checker.permissionGroupMap (fun group => p.groups.contains group) ||
  hasPermission perm checker.permissionClaimMap (fun claim => p.claims.contains claim)

/-! ## Queue model (pkg/client/queue)

The queue client package is not among the provided sources; only its
callers are.  The definitions below are therefore modelled from the spec:
a queue carries a name, a priority factor, resource limits and a list of
permission bindings; a binding is a list of subjects (user or group kind)
together with a list of verbs; a principal satisfies a binding iff it
intersects the subjects (by user name for user kind, by group membership
for group kind) and the requested verb is listed. -/

/-- Modelled from the spec: subject kinds of a queue permission binding. -/
inductive PermissionSubjectKind
  | user
  | group
deriving DecidableEq, Repr

/-- Modelled from the spec: a subject of a queue permission binding. -/
structure PermissionSubject where
  kind : PermissionSubjectKind
  name : String
deriving DecidableEq, Repr

/-- Modelled from the spec: the per-queue verbs. -/
inductive PermissionVerb
  | submit
  | cancel
  | reprioritize
  | watch
deriving DecidableEq, Repr

/-- Modelled from the spec: one queue permission binding. -/
structure QueuePermissions where
  subjects : List PermissionSubject
  verbs : List PermissionVerb
deriving DecidableEq, Repr

/-- Modelled from the spec: the queue record used by the submit server.
The priority factor (a float in Go) is modelled as a rational. -/
structure Queue where
  name : String
  priorityFactor : Rat
  resourceLimits : List (String × Rat)
  permissions : List QueuePermissions
deriving DecidableEq, Repr

/-- Modelled from the spec: Queue.HasPermission, true iff some binding of
the queue lists the subject and the verb. -/
def Queue.hasPermission (q : Queue) (subject : PermissionSubject)
    (verb : PermissionVerb) : Bool :=
  q.permissions.any (fun b => b.subjects.contains subject && b.verbs.contains verb)

/-- Modelled from the spec: NewPermissionSubjectsFromOwners, turning user
owners into user-kind subjects and group owners into group-kind subjects. -/
def newPermissionSubjectsFromOwners (owners groupOwners : List String) :
    List PermissionSubject :=
  owners.map (fun o => ⟨.user, o⟩) ++ groupOwners.map (fun g => ⟨.group, g⟩)

/-- All per-queue verbs. -/
def allPermissionVerbs : List PermissionVerb :=
  [.submit, .cancel, .reprioritize, .watch]

/-- Modelled from the spec: NewPermissionsFromOwners, a binding granting
every verb to the owner subjects. -/
def newPermissionsFromOwners (owners groupOwners : List String) : QueuePermissions :=
  ⟨newPermissionSubjectsFromOwners owners groupOwners, allPermissionVerbs⟩

/-- Modelled from the spec: the user owners of a queue, read off as the
user-kind subjects of its permission bindings. -/
def Queue.userOwners (q : Queue) : List String :=
  (q.permissions.map (fun b =>
    b.subjects.filterMap (fun s =>
      if s.kind = PermissionSubjectKind.user then some s.name else none))).flatten

/-! ## Status codes and permission errors -/

/-- gRPC status codes used by the submit server. -/
inductive Code
  | ok
  | invalidArgument
  | notFound
  | alreadyExists
  | permissionDenied
  | unavailable
  | aborted
  | internal
  | failedPrecondition
  | deadlineExceeded
deriving DecidableEq, Repr

/-- A gRPC status: a code plus a message, the message kept as characters. -/
structure Status where
  code : Code
  message : List Char
deriving DecidableEq, Repr

/-- Modelled from the spec: ErrNoPermission, the refusal produced by a
failed permission check, reduced to its diagnostic message. -/
structure ErrNoPermission where
  message : List Char
deriving DecidableEq, Repr

/-- Modelled from the spec: MergePermissionErrors composes the global and
the queue-level refusal into a single merged diagnostic. -/
def mergePermissionErrors (g q : ErrNoPermission) : ErrNoPermission :=
  ⟨g.message ++ ("; ").data ++ q.message⟩

/-- Diagnostic for a failed global permission check. -/
def globalPermErrMsg (p : Principal) (perm : Permission) : List Char :=
  ("user " ++ p.name ++ " lacks global permission " ++ reprStr perm).data

/-- Diagnostic for a failed queue-level permission check. -/
def queuePermErrMsg (p : Principal) (q : Queue) (verb : PermissionVerb) : List Char :=
  ("user " ++ p.name ++ " lacks verb " ++ reprStr verb ++ " on queue " ++ q.name).data

/-- Modelled from the spec: checkPermission returns a refusal iff the
checker denies the global permission. -/
def checkPermission (checker : PrincipalPermissionChecker) (p : Principal)
    (perm : Permission) : Option ErrNoPermission :=
  if userHasPermission checker p perm then none
  else some ⟨globalPermErrMsg p perm⟩

/-- The subjects a principal can act as: itself as a user-kind subject and
each of its groups as a group-kind subject. -/
def principalSubjects (p : Principal) : List PermissionSubject :=
  newPermissionSubjectsFromOwners [p.name] p.groups

/-- Modelled from the spec: checkQueuePermission returns a refusal iff the
queue's own permissions list does not grant the verb to any subject
matching the caller (by user name or group membership). -/
def checkQueuePermission (p : Principal) (q : Queue) (verb : PermissionVerb) :
    Option ErrNoPermission :=
  if (principalSubjects p).any (fun s => q.hasPermission s verb) then none
  else some ⟨queuePermErrMsg p q verb⟩

/-! ## Resource lists, containers and pod specs -/

/-- A Kubernetes resource list: names mapped to quantities.  Quantities are
opaque to the submit server, which only copies and compares them; they are
modelled as naturals. -/
abbrev ResourceList : Type := List (String × Nat)

/-- Lookup of a resource name in a resource list (Go map read). -/
def rlLookup : ResourceList → String → Option Nat
  | [], _ => none
  | (k, v) :: rest, key => if k = key then some v else rlLookup rest key

/-- Map write: replace the value when the key is present, append otherwise. -/
def rlSet (rl : ResourceList) (key : String) (v : Nat) : ResourceList :=
  if (rlLookup rl key).isSome then
    rl.map (fun kv => if kv.1 = key then (kv.1, v) else kv)
  else
    rl ++ [(key, v)]

/-- The loop body shared by both copy directions of
fillContainerRequestsAndLimits: for every resource of src missing from
dst, copy the src value into dst. -/
def copyMissing (dst : ResourceList) (src : ResourceList) : ResourceList :=
  src.foldl (fun acc kv =>
    if (rlLookup acc kv.1).isSome then acc else acc ++ [kv]) dst

/-- Container resource requirements.  A nil Go map is identified with the
empty list, matching the nil-to-empty normalisation the server performs
before writing. -/
structure ResourceRequirements where
  limits : ResourceList
  requests : ResourceList
deriving DecidableEq

/-- A container, reduced to the fields the submit server touches. -/
structure Container where
  resources : ResourceRequirements
deriving DecidableEq

/-- A pod toleration, with the fields MatchToleration compares. -/
structure Toleration where
  key : String
  operator : String
  value : String
  effect : String
deriving DecidableEq, Repr

/-- MatchToleration: equality of key, operator, value and effect. -/
def matchToleration (t other : Toleration) : Bool :=
  t.key = other.key && t.effect = other.effect &&
  t.operator = other.operator && t.value = other.value

/-- A pod spec, reduced to the fields the submit server touches. -/
structure PodSpec where
  containers : List Container
  nodeSelector : List (String × String)
  tolerations : List Toleration
deriving DecidableEq

/-- Per-container body of fillContainerRequestsAndLimits: copy limits into
missing requests, then copy the updated requests into missing limits. -/
def fillContainer (c : Container) : Container :=
  let requests := copyMissing c.resources.requests c.resources.limits
  let limits := copyMissing c.resources.limits requests
  ⟨⟨limits, requests⟩⟩

/-- fillContainerRequestsAndLimits: apply the symmetric copy to every
container of the list. -/
def fillContainerRequestsAndLimits (containers : List Container) : List Container :=
  containers.map fillContainer

/-- The per-container defaults loop of applyDefaultsToPodSpec.  It mirrors
the source exactly: both hasLimit and hasRequest read the limits map (the
second read is the slip at part_002 line 711), and when both are false the
default value is written to requests and limits. -/
def applyDefaultLimits (defaultJobLimits : ResourceList) (c : Container) : Container :=
  defaultJobLimits.foldl (fun c kv =>
    let hasLimit := (rlLookup c.resources.limits kv.1).isSome
    let hasRequest := (rlLookup c.resources.limits kv.1).isSome
    if !hasLimit && !hasRequest then
      ⟨⟨rlSet c.resources.limits kv.1 kv.2, rlSet c.resources.requests kv.1 kv.2⟩⟩
    else c) c

/-- Association-list write keyed by toleration key (Go map write). -/
def tolSet (m : List (String × Toleration)) (key : String) (t : Toleration) :
    List (String × Toleration) :=
  if (m.lookup key).isSome then
    m.map (fun kv => if kv.1 = key then (kv.1, t) else kv)
  else
    m ++ [(key, t)]

/-- The toleration-defaulting loop of applyDefaultsToPodSpec: build a map
of the pod's tolerations by key, then append every default toleration
whose key is absent or whose entry does not match it. -/
def applyDefaultTolerations (defaults : List Toleration) (spec : PodSpec) :
    List Toleration :=
  let podTolerations := spec.tolerations.foldl (fun m t => tolSet m t.key t) []
  defaults.foldl (fun acc d =>
    match podTolerations.lookup d.key with
    | none => acc ++ [d]
    | some t => if matchToleration d t then acc else acc ++ [d]) spec.tolerations

/-- applyDefaultsToPodSpec on a non-nil pod spec: default resources per
container, then default tolerations. -/
def applyDefaultsToPodSpecCore (defaultJobLimits : ResourceList)
    (defaultJobTolerations : List Toleration) (spec : PodSpec) : PodSpec :=
  { spec with
    containers := spec.containers.map (applyDefaultLimits defaultJobLimits),
    tolerations := applyDefaultTolerations defaultJobTolerations
      { spec with containers := spec.containers.map (applyDefaultLimits defaultJobLimits) } }

/-- applyDefaultsToPodSpec: a nil spec is returned untouched. -/
def applyDefaultsToPodSpec (defaultJobLimits : ResourceList)
    (defaultJobTolerations : List Toleration) : Option PodSpec → Option PodSpec
  | none => none
  | some spec => some (applyDefaultsToPodSpecCore defaultJobLimits defaultJobTolerations spec)

/-! ## String replacement (strings.ReplaceAll) and label enrichment -/

/-- strings.ReplaceAll on character lists: scan left to right, replace each
leftmost non-overlapping occurrence of patt by rep, and do not rescan the
replacement.  The empty pattern (which Go treats specially) never occurs in
the server; it is mapped to the identity. -/
def replaceAll (patt rep : List Char) : List Char → List Char
  | [] => []
  | c :: s =>
    if h : patt ≠ [] ∧ patt.isPrefixOf (c :: s) then
      rep ++ replaceAll patt rep ((c :: s).drop patt.length)
    else
      c :: replaceAll patt rep s
termination_by s => s.length
decreasing_by
  · have hp : 0 < patt.length := List.length_pos.mpr h.1
    simp only [List.length_drop, List.length_cons]
    omega
  · simp

/-- The placeholder pattern: an opening brace, the letters JobId, a closing
brace. -/
def jobIdPat : List Char := ['{', 'J', 'o', 'b', 'I', 'd', '}']

/-- The escape pattern: the placeholder wrapped in a second pair of braces. -/
def escPat : List Char := ['{'] ++ jobIdPat ++ ['}']

/-- The sentinel the source substitutes for the escape pattern: a space, a
backslash and the letter z, a sequence a caller cannot enter manually. -/
def spaceZ : List Char := [' ', '\\', 'z']

/-- The verbatim letters JobId that an escape finally yields. -/
def litJobId : List Char := ['J', 'o', 'b', 'I', 'd']

/-- enrichText on one value: protect escapes with the sentinel, substitute
the job id for the placeholder, then turn sentinels into the verbatim
letters. -/
def enrichValue (jobId : List Char) (v : List Char) : List Char :=
  replaceAll spaceZ litJobId (replaceAll jobIdPat jobId (replaceAll escPat spaceZ v))

/-- enrichText: rewrite every value of the label (or annotation) map,
leaving keys untouched. -/
def enrichText (labels : List (String × String)) (jobId : String) :
    List (String × String) :=
  labels.map (fun kv => (kv.1, String.mk (enrichValue jobId.data kv.2.data)))

/-! ## Requests, jobs and job creation -/

/-- An ingress configuration of a request item, reduced to the ports the
validator inspects. -/
structure IngressConfig where
  ports : List Nat
deriving DecidableEq

/-- A service configuration of a request item. -/
structure ServiceConfig where
  ports : List Nat
deriving DecidableEq

/-- One item of a JobSubmitRequest.  Labels, annotations and required node
labels are Go maps modelled as association lists; priority (a float) is
modelled as a rational. -/
structure JobSubmitRequestItem where
  priority : Rat
  ns : String
  clientId : String
  labels : List (String × String)
  annotations : List (String × String)
  requiredNodeLabels : List (String × String)
  podSpec : Option PodSpec
  podSpecs : List PodSpec
  ingress : List IngressConfig
  services : List ServiceConfig
deriving DecidableEq

/-- Modelled from the spec: GetAllPodSpecs of the generated api package,
the list of pod specs of an item, the singular deprecated field included. -/
def JobSubmitRequestItem.getAllPodSpecs (item : JobSubmitRequestItem) : List PodSpec :=
  item.podSpecs ++ item.podSpec.toList

/-- A JobSubmitRequest. -/
structure JobSubmitRequest where
  queue : String
  jobSetId : String
  jobRequestItems : List JobSubmitRequestItem
deriving DecidableEq

/-- The job record the server builds and persists. -/
structure Job where
  id : String
  clientId : String
  queue : String
  jobSetId : String
  ns : String
  labels : List (String × String)
  annotations : List (String × String)
  requiredNodeLabels : List (String × String)
  ingress : List IngressConfig
  services : List ServiceConfig
  priority : Rat
  podSpec : Option PodSpec
  podSpecs : List PodSpec
  created : Nat
  owner : String
  queueOwnershipUserGroups : List String
deriving DecidableEq

/-- The port-map loop of validateIngressConfigs over the ports of a single
ingress configuration: record each port against the configuration index,
rejecting a port that was already recorded. -/
def checkIngressPorts (idx : Nat) : List Nat → List (Nat × Nat) →
    Except (List Char) (List (Nat × Nat))
  | [], seen => .ok seen
  | port :: rest, seen =>
    match seen.lookup port with
    | some existingIdx =>
      .error (("port " ++ toString port ++ " has two ingress configurations, indexes "
        ++ toString existingIdx ++ ", " ++ toString idx).data)
    | none => checkIngressPorts idx rest (seen ++ [(port, idx)])

/-- The outer loop of validateIngressConfigs: each configuration must have
at least one port, and no port may appear twice across the item. -/
def validateIngressLoop : List IngressConfig → Nat → List (Nat × Nat) →
    Option (List Char)
  | [], _, _ => none
  | cfg :: rest, idx, seen =>
    if cfg.ports = [] then
      some ("ingress contains zero ports").data
    else
      match checkIngressPorts idx cfg.ports seen with
      | .error e => some e
      | .ok seen' => validateIngressLoop rest (idx + 1) seen'

/-- validateIngressConfigs (common/validation/job.go). -/
def validateIngressConfigs (item : JobSubmitRequestItem) : Option (List Char) :=
  validateIngressLoop item.ingress 0 []

/-- ValidateJobSubmitRequestItem delegates to the ingress validation. -/
def validateJobSubmitRequestItem (item : JobSubmitRequestItem) : Option (List Char) :=
  validateIngressConfigs item

/-- Merge of the deprecated required node labels into a pod's node
selector (Go map writes). -/
def mergeNodeSelector (selector : List (String × String))
    (required : List (String × String)) : List (String × String) :=
  required.foldl (fun acc kv =>
    if (acc.lookup kv.1).isSome then
      acc.map (fun p => if p.1 = kv.1 then (p.1, kv.2) else p)
    else acc ++ [kv]) selector

/-- The collaborator responses and configuration the job-creation and
submission pipeline consults.  Pod-spec validation, the scheduling-info
read, the feasibility check, the job-store write and the event-sink
appends live outside the provided sources, so their outcomes are supplied
as oracle values. -/
structure SubmitDeps where
  validatePodSpec : PodSpec → Option (List Char)
  defaultJobLimits : ResourceList
  defaultJobTolerations : List Toleration
  now : Nat
  getUlid : Nat → String

/-- The per-pod transformation of createJobsObjects: fill the symmetric
requests and limits, apply the configured defaults, validate, then merge
the deprecated required node labels into the node selector. -/
def transformPod (deps : SubmitDeps) (required : List (String × String))
    (pod : PodSpec) : Except (List Char) PodSpec :=
  let filled := { pod with containers := fillContainerRequestsAndLimits pod.containers }
  let defaulted := applyDefaultsToPodSpecCore deps.defaultJobLimits
    deps.defaultJobTolerations filled
  match deps.validatePodSpec defaulted with
  | some e => .error e
  | none => .ok { defaulted with
      nodeSelector := mergeNodeSelector defaulted.nodeSelector required }

/-- transformPod over a list of pods, stopping at the first invalid pod. -/
def transformPods (deps : SubmitDeps) (required : List (String × String)) :
    List PodSpec → Except (List Char) (List PodSpec)
  | [] => .ok []
  | pod :: rest => do
    let p ← transformPod deps required pod
    let ps ← transformPods deps required rest
    .ok (p :: ps)

/-- The per-item body of createJobsObjects: reject an item that carries
both or neither pod-spec field, validate the item, transform its pods,
mint the id and build the job record with enriched labels and
annotations. -/
def createJobFromItem (deps : SubmitDeps) (req : JobSubmitRequest)
    (owner : String) (ownershipGroups : List String) (i : Nat)
    (item : JobSubmitRequestItem) : Except (List Char) Job :=
  if item.podSpec.isSome && !item.podSpecs.isEmpty then
    .error ("job " ++ toString i ++ " contains both podSpec and podSpecs").data
  else if item.getAllPodSpecs.isEmpty then
    .error ("job " ++ toString i ++ " contains no podSpec or podSpecs").data
  else
    match validateJobSubmitRequestItem item with
    | some e => .error (("error validating job " ++ toString i ++ ": ").data ++ e)
    | none => do
      let ns := if item.ns = "" then "default" else item.ns
      let pods ← transformPods deps item.requiredNodeLabels item.getAllPodSpecs
      let jobId := deps.getUlid i
      .ok {
        id := jobId
        clientId := item.clientId
        queue := req.queue
        jobSetId := req.jobSetId
        ns := ns
        labels := enrichText item.labels jobId
        annotations := enrichText item.annotations jobId
        requiredNodeLabels := item.requiredNodeLabels
        ingress := item.ingress
        services := item.services
        priority := item.priority
        podSpec := if item.podSpec.isSome then pods.getLast? else none
        podSpecs := if item.podSpec.isSome then [] else pods
        created := deps.now
        owner := owner
        queueOwnershipUserGroups := ownershipGroups }

/-- The item loop of createJobsObjects, threading the item index. -/
def createJobsLoop (deps : SubmitDeps) (req : JobSubmitRequest) (owner : String)
    (ownershipGroups : List String) : List JobSubmitRequestItem → Nat →
    Except (List Char) (List Job)
  | [], _ => .ok []
  | item :: rest, i => do
    let j ← createJobFromItem deps req owner ownershipGroups i item
    let js ← createJobsLoop deps req owner ownershipGroups rest (i + 1)
    .ok (j :: js)

/-- createJobsObjects: reject requests without a job set or queue, then
build one job per item. -/
def createJobsObjects (deps : SubmitDeps) (req : JobSubmitRequest) (owner : String)
    (ownershipGroups : List String) : Except (List Char) (List Job) :=
  if req.jobSetId = "" then .error ("job set not specified").data
  else if req.queue = "" then .error ("queue not specified").data
  else createJobsLoop deps req owner ownershipGroups req.jobRequestItems 0

/-! ## The submission pipeline (SubmitServer.SubmitJobs) -/

/-- The queue registry state, modelled as a lookup function.  A read that
misses is the not-found error of the repository; infrastructure failures
are outside the pure model. -/
def QueueRepo : Type := String → Option Queue

/-- Server configuration for queue management. -/
structure QueueManagementConfig where
  autoCreateQueues : Bool
  defaultPriorityFactor : Rat

/-- getQueueOrCreate: return the queue when it exists; otherwise create it
iff auto-creation is enabled and the caller holds submit-any-jobs, with
the caller and its groups as the owners binding; otherwise not-found. -/
def getQueueOrCreate (checker : PrincipalPermissionChecker)
    (cfg : QueueManagementConfig) (p : Principal) (repo : QueueRepo)
    (queueName : String) : Except Status Queue × QueueRepo :=
  match repo queueName with
  | some q => (.ok q, repo)
  | none =>
    if !cfg.autoCreateQueues || !userHasPermission checker p .submitAnyJobs then
      (.error ⟨.notFound, ("Queue " ++ queueName ++ " not found").data⟩, repo)
    else
      let q : Queue := {
        name := queueName
        priorityFactor := cfg.defaultPriorityFactor
        resourceLimits := []
        permissions := [newPermissionsFromOwners [p.name] p.groups] }
      (.ok q, fun n => if n = queueName then some q else repo n)

/-- The ownership-groups computation of SubmitJobs: no groups when the
caller has direct per-queue submit permission as a user-kind subject,
otherwise the caller groups that are themselves granted the submit verb. -/
def computeOwnershipGroups (q : Queue) (p : Principal) : List String :=
  if q.hasPermission ⟨.user, p.name⟩ .submit then []
  else
    (newPermissionSubjectsFromOwners [] p.groups).foldl (fun acc subject =>
      if q.hasPermission subject .submit then acc ++ [subject.name] else acc) []

/-- One result row of the job store's AddJobs. -/
structure SubmitJobResult where
  jobId : String
  error : Option (List Char)
  duplicateDetected : Bool
deriving DecidableEq

/-- One row of the JobSubmitResponse. -/
structure JobSubmitResponseItem where
  jobId : String
  error : Option (List Char)
deriving DecidableEq

/-- The event-sink appends and job-store writes SubmitJobs performs, in
order.  Queue auto-creation is a registry write and is tracked through
the returned repository state instead. -/
inductive SubmitEffect
  | reportSubmitted (jobs : List Job)
  | addJobs (jobs : List Job)
  | reportFailed (failures : List (Job × List Char))
  | reportDuplicateDetected (results : List SubmitJobResult)
  | reportQueued (jobs : List Job)
deriving DecidableEq

/-- Collaborator outcomes of the stages of SubmitJobs that follow job
creation: the scheduling-info read, the feasibility check, the job-store
write and the four event-sink appends. -/
structure SubmitOracles where
  schedulingInfoErr : Option (List Char)
  validateJobsCanBeScheduled : List Job → Option (List Char)
  addJobs : List Job → Except (List Char) (List SubmitJobResult)
  reportSubmittedErr : Option (List Char)
  reportFailedErr : Option (List Char)
  reportDuplicateErr : Option (List Char)
  reportQueuedErr : Option (List Char)

/-- What a SubmitJobs call returns and does: an optional response, an
optional error status (both can be present on post-write reporting
failures), the final registry state and the sink and store operations
attempted. -/
structure SubmitReturn where
  resp : Option (List JobSubmitResponseItem)
  err : Option Status
  repo : QueueRepo
  effects : List SubmitEffect

/-- The post-write reporting chain of SubmitJobs: report the failed, the
duplicate and the queued partitions in order, each report possibly failing
with an internal error that still carries the assembled response. -/
def submitJobsReport (oracles : SubmitOracles) (repo : QueueRepo)
    (respItems : List JobSubmitResponseItem) (failures : List (Job × List Char))
    (duplicates : List SubmitJobResult) (created : List Job) (jobs : List Job) :
    SubmitReturn :=
  match oracles.reportFailedErr with
  | some re => ⟨some respItems,
      some ⟨.internal, ("error reporting failed jobs: ").data ++ re⟩, repo,
      [.reportSubmitted jobs, .addJobs jobs, .reportFailed failures]⟩
  | none =>
    match oracles.reportDuplicateErr with
    | some re => ⟨some respItems,
        some ⟨.internal, ("error reporting duplicate jobs: ").data ++ re⟩, repo,
        [.reportSubmitted jobs, .addJobs jobs, .reportFailed failures,
          .reportDuplicateDetected duplicates]⟩
    | none =>
      match oracles.reportQueuedErr with
      | some re => ⟨some respItems,
          some ⟨.internal, ("error reporting queued jobs: ").data ++ re⟩, repo,
          [.reportSubmitted jobs, .addJobs jobs, .reportFailed failures,
            .reportDuplicateDetected duplicates, .reportQueued created]⟩
      | none =>
        if !failures.isEmpty then
          ⟨some respItems, some ⟨.internal, ("error submitting some or all jobs").data⟩,
            repo, [.reportSubmitted jobs, .addJobs jobs, .reportFailed failures,
              .reportDuplicateDetected duplicates, .reportQueued created]⟩
        else
          ⟨some respItems, none, repo,
            [.reportSubmitted jobs, .addJobs jobs, .reportFailed failures,
              .reportDuplicateDetected duplicates, .reportQueued created]⟩

/-- The stages of SubmitJobs from the feasibility check onwards: report
submitted, write the jobs, partition the results into failed, duplicate
and created, and report each partition. -/
def submitJobsWrite (oracles : SubmitOracles) (repo : QueueRepo)
    (jobs : List Job) : SubmitReturn :=
  match oracles.reportSubmittedErr with
  | some e => ⟨none, some ⟨.aborted, ("error getting submitted report: ").data ++ e⟩,
      repo, [.reportSubmitted jobs]⟩
  | none =>
    match oracles.addJobs jobs with
    | .error e =>
      match oracles.reportFailedErr with
      | some re => ⟨none, some ⟨.internal, ("error reporting failure event: ").data ++ re⟩,
          repo, [.reportSubmitted jobs, .addJobs jobs,
            .reportFailed (jobs.map (fun j => (j, ("Failed to save job in Armada").data)))]⟩
      | none => ⟨none, some ⟨.aborted, ("error saving jobs in Armada: ").data ++ e⟩,
          repo, [.reportSubmitted jobs, .addJobs jobs,
            .reportFailed (jobs.map (fun j => (j, ("Failed to save job in Armada").data)))]⟩
    | .ok results =>
      submitJobsReport oracles repo
        (results.map (fun r => JobSubmitResponseItem.mk r.jobId r.error))
        ((results.zip jobs).filterMap (fun rj =>
          rj.1.error.map (fun e => (rj.2, ("Failed to save job in Armada: ").data ++ e))))
        ((results.zip jobs).filterMap (fun rj =>
          if rj.1.error = none && rj.1.duplicateDetected then some rj.1 else none))
        ((results.zip jobs).filterMap (fun rj =>
          if rj.1.error = none && !rj.1.duplicateDetected then some rj.2 else none))
        jobs

/-- The authorised remainder of SubmitJobs: compute the ownership groups,
build the job objects, check feasibility, then write and report. -/
def submitJobsAuthorized (deps : SubmitDeps) (oracles : SubmitOracles)
    (repo : QueueRepo) (p : Principal) (q : Queue) (req : JobSubmitRequest) :
    SubmitReturn :=
  match createJobsObjects deps req p.name (computeOwnershipGroups q p) with
  | .error e => ⟨none,
      some ⟨.invalidArgument, ("Error submitting job for user " ++ p.name ++ ": ").data ++ e⟩,
      repo, []⟩
  | .ok jobs =>
    match oracles.schedulingInfoErr with
    | some e => ⟨none,
        some ⟨.invalidArgument, ("error getting scheduling info: ").data ++ e⟩, repo, []⟩
    | none =>
      match oracles.validateJobsCanBeScheduled jobs with
      | some e => ⟨none,
          some ⟨.invalidArgument, ("error submitting jobs for user " ++ p.name ++ ": ").data ++ e⟩,
          repo, []⟩
      | none => submitJobsWrite oracles repo jobs

/-- SubmitServer.SubmitJobs: resolve or auto-create the queue, run the
two-tier submit authorization, then hand over to the authorised
remainder. -/
def SubmitJobs (checker : PrincipalPermissionChecker) (cfg : QueueManagementConfig)
    (deps : SubmitDeps) (oracles : SubmitOracles) (repo : QueueRepo)
    (p : Principal) (req : JobSubmitRequest) : SubmitReturn :=
  match getQueueOrCreate checker cfg p repo req.queue with
  | (.error st, repo') => ⟨none, some st, repo', []⟩
  | (.ok q, repo') =>
    match checkPermission checker p .submitAnyJobs with
    | none => submitJobsAuthorized deps oracles repo' p q req
    | some globalPermErr =>
      match checkQueuePermission p q .submit with
      | none => submitJobsAuthorized deps oracles repo' p q req
      | some queuePermErr =>
        ⟨none, some ⟨.permissionDenied,
          ("error submitting job in queue " ++ req.queue ++ ": ").data ++
            (mergePermissionErrors globalPermErr queuePermErr).message⟩,
          repo', []⟩

/-! ## Cancellation -/

/-- A JobCancelRequest. -/
structure JobCancelRequest where
  jobId : String
  jobSetId : String
  queue : String
deriving DecidableEq

/-- What a CancelJobs call returns: an optional cancellation result (the
ids cancelled) and an optional error status; partial results are returned
together with an error. -/
structure CancelReturn where
  cancelledIds : Option (List String)
  err : Option Status
deriving DecidableEq

/-- CancelJobs: dispatch on the request shape.  A non-empty job id takes
the single-id path; else a non-empty job set and queue take the set path;
else the request is rejected before any collaborator is contacted.  The
two paths are oracle parameters so that the dispatch can be studied for
every behaviour of theirs. -/
def CancelJobs (byId : String → CancelReturn)
    (bySet : String → String → CancelReturn) (req : JobCancelRequest) : CancelReturn :=
  if req.jobId ≠ "" then byId req.jobId
  else if req.jobSetId ≠ "" && req.queue ≠ "" then bySet req.queue req.jobSetId
  else ⟨none, some ⟨.invalidArgument,
    ("specify either job ID or both queue name and job set ID").data⟩⟩

/-- Modelled from the spec: util.Batch splits the ids into consecutive
chunks of the configured batch size, the last chunk possibly smaller.  A
batch size of zero is outside the configuration range and yields no
batches. -/
def batchChunks (n : Nat) (xs : List String) : List (List String) :=
  if h : n = 0 ∨ xs = [] then []
  else xs.take n :: batchChunks n (xs.drop n)
termination_by xs.length
decreasing_by
  have h1 : n ≠ 0 := fun hn => h (Or.inl hn)
  have h2 : xs ≠ [] := fun hx => h (Or.inr hx)
  have : 0 < xs.length := List.length_pos.mpr h2
  simp only [List.length_drop]
  omega

/-- The collaborator outcome of one iteration of the set-scoped cancel
loop: the job fetch can fail, the cancel can be refused or fail, or it
returns the ids it cancelled. -/
inductive BatchOutcome
  | fetchErr (e : List Char)
  | permErr (e : ErrNoPermission)
  | cancelErr (e : List Char)
  | ok (cancelledIds : List String)

/-- The batch loop of cancelJobsByQueueAndSet: per batch, fetch and cancel
through the oracle and accumulate the cancelled ids; after each completed
batch, stop with deadline-exceeded and the accumulated ids when the
context deadline is within one second (the closeToDeadline oracle). -/
def cancelBatchLoop (outcome : Nat → BatchOutcome) (closeToDeadline : Nat → Bool) :
    List (List String) → Nat → List String → CancelReturn
  | [], _, acc => ⟨some acc, none⟩
  | _ :: rest, i, acc =>
    match outcome i with
    | .fetchErr e => ⟨some acc, some ⟨.internal, ("error getting jobs: ").data ++ e⟩⟩
    | .permErr e => ⟨none, some ⟨.permissionDenied,
        ("error canceling jobs: ").data ++ e.message⟩⟩
    | .cancelErr e => ⟨some acc, some ⟨.unavailable,
        ("error checking permissions: ").data ++ e⟩⟩
    | .ok ids =>
      let acc' := acc ++ ids
      if closeToDeadline i then
        ⟨some acc', some ⟨.deadlineExceeded, ("deadline exceeded").data⟩⟩
      else
        cancelBatchLoop outcome closeToDeadline rest (i + 1) acc'

/-- cancelJobsByQueueAndSet: fetch the active ids, split them into batches
of the configured size and run the batch loop. -/
def cancelJobsByQueueAndSet (outcome : Nat → BatchOutcome)
    (closeToDeadline : Nat → Bool) (activeIds : Except (List Char) (List String))
    (batchSize : Nat) : CancelReturn :=
  match activeIds with
  | .error e => ⟨none, some ⟨.unavailable, ("error getting job IDs: ").data ++ e⟩⟩
  | .ok ids => cancelBatchLoop outcome closeToDeadline (batchChunks batchSize ids) 0 []

/-! ## Per-queue permission checks of cancel and reprioritize -/

/-- The distinct queue names of a list of jobs, in first-appearance order
(the Go source collects them into a map; its iteration order is
arbitrary, and first-appearance order is one admissible order). -/
def distinctQueues (jobs : List Job) : List String :=
  jobs.foldl (fun acc j => if acc.contains j.queue then acc else acc ++ [j.queue]) []

/-- Outcome of checkCancelPerms and checkReprioritizePerms. -/
inductive PermCheckOutcome
  | ok
  | repoErr (queueName : String)
  | denied (e : ErrNoPermission)
deriving DecidableEq

/-- The shared loop of checkCancelPerms and checkReprioritizePerms: for
each distinct queue, pass iff the global any-permission or the queue-level
verb is granted, returning the merged refusal when both tiers fail. -/
def checkPermsLoop (checker : PrincipalPermissionChecker) (p : Principal)
    (repo : QueueRepo) (anyPerm : Permission) (verb : PermissionVerb) :
    List String → PermCheckOutcome
  | [] => .ok
  | queueName :: rest =>
    match repo queueName with
    | none => .repoErr queueName
    | some q =>
      match checkPermission checker p anyPerm with
      | none => checkPermsLoop checker p repo anyPerm verb rest
      | some globalPermErr =>
        match checkQueuePermission p q verb with
        | none => checkPermsLoop checker p repo anyPerm verb rest
        | some queuePermErr => .denied (mergePermissionErrors globalPermErr queuePermErr)

/-- checkCancelPerms: the two-tier cancel check on every queue of the
jobs. -/
def checkCancelPerms (checker : PrincipalPermissionChecker) (p : Principal)
    (repo : QueueRepo) (jobs : List Job) : PermCheckOutcome :=
  checkPermsLoop checker p repo .cancelAnyJobs .cancel (distinctQueues jobs)

/-- checkReprioritizePerms: the two-tier reprioritize check on every queue
of the jobs. -/
def checkReprioritizePerms (checker : PrincipalPermissionChecker) (p : Principal)
    (repo : QueueRepo) (jobs : List Job) : PermCheckOutcome :=
  checkPermsLoop checker p repo .reprioritizeAnyJobs .reprioritize (distinctQueues jobs)

/-! ## DeleteQueue -/

/-- A queue's active job sets, as the job repository reports them. -/
structure JobSetInfo where
  name : String
  queuedJobs : Nat
  leasedJobs : Nat
deriving DecidableEq

/-- What DeleteQueue returns, together with whether the registry delete
was invoked. -/
structure DeleteQueueReturn where
  err : Option Status
  deleteInvoked : Bool
deriving DecidableEq

/-- SubmitServer.DeleteQueue: require the delete-queue permission, refuse
with failed-precondition while active job sets exist, and only then invoke
the registry delete. -/
def DeleteQueue (checker : PrincipalPermissionChecker) (p : Principal)
    (activeJobSets : Except (List Char) (List JobSetInfo))
    (deleteErr : Option (List Char)) (queueName : String) : DeleteQueueReturn :=
  match checkPermission checker p .deleteQueue with
  | some e => ⟨some ⟨.permissionDenied,
      ("error deleting queue " ++ queueName ++ ": ").data ++ e.message⟩, false⟩
  | none =>
    match activeJobSets with
    | .error e => ⟨some ⟨.invalidArgument,
        ("error getting active job sets: ").data ++ e⟩, false⟩
    | .ok active =>
      if active.length > 0 then
        ⟨some ⟨.failedPrecondition,
          ("error deleting queue " ++ queueName ++ ": queue is not empty").data⟩, false⟩
      else
        match deleteErr with
        | some e => ⟨some ⟨.invalidArgument,
            ("error deleting queue " ++ queueName ++ ": ").data ++ e⟩, true⟩
        | none => ⟨none, true⟩

/-! ## Auxiliary definitions used by the theorems below -/

/-- The ids cancelled by batches i through i + k, concatenated in order. -/
def joinRes (res : Nat → List String) (i : Nat) : Nat → List String
  | 0 => res i
  | k + 1 => res i ++ joinRes res (i + 1) k

/-- An item that violates the exactly-one-of rule: both pod-spec fields
set, or neither. -/
def badShape (item : JobSubmitRequestItem) : Prop :=
  (item.podSpec.isSome = true ∧ item.podSpecs ≠ []) ∨
  (item.podSpec = none ∧ item.podSpecs = [])

instance (item : JobSubmitRequestItem) : Decidable (badShape item) := by
  unfold badShape
  infer_instance

/-- A token of a label or annotation value: a literal chunk, a placeholder
occurrence, or an escaped occurrence.  flatRaw renders tokens into the raw
value a caller submits; flatSpec renders them the way the spec says the
stored value must read. -/
inductive EnrichTok
  | lit (s : List Char)
  | placeholder
  | escaped
deriving DecidableEq

/-- The raw value: the placeholder renders as the brace-wrapped JobId
pattern, the escape as the doubly-wrapped one. -/
def flatRaw : List EnrichTok → List Char
  | [] => []
  | .lit s :: ts => s ++ flatRaw ts
  | .placeholder :: ts => jobIdPat ++ flatRaw ts
  | .escaped :: ts => escPat ++ flatRaw ts

/-- The value after the first pass: escapes replaced by the sentinel. -/
def flat1 : List EnrichTok → List Char
  | [] => []
  | .lit s :: ts => s ++ flat1 ts
  | .placeholder :: ts => jobIdPat ++ flat1 ts
  | .escaped :: ts => spaceZ ++ flat1 ts

/-- The value after the second pass: placeholders replaced by the job id. -/
def flat2 (jobId : List Char) : List EnrichTok → List Char
  | [] => []
  | .lit s :: ts => s ++ flat2 jobId ts
  | .placeholder :: ts => jobId ++ flat2 jobId ts
  | .escaped :: ts => spaceZ ++ flat2 jobId ts

/-- The stored value the spec prescribes: placeholders become the minted
id, escapes become the verbatim letters JobId. -/
def flatSpec (jobId : List Char) : List EnrichTok → List Char
  | [] => []
  | .lit s :: ts => s ++ flatSpec jobId ts
  | .placeholder :: ts => jobId ++ flatSpec jobId ts
  | .escaped :: ts => litJobId ++ flatSpec jobId ts

/-- A literal chunk is clean when it contains no opening brace and no
backslash. -/
def goodTok : EnrichTok → Prop
  | .lit s => '{' ∉ s ∧ '\\' ∉ s
  | .placeholder => True
  | .escaped => True

instance : DecidablePred goodTok := fun t => by
  cases t <;> simp only [goodTok] <;> infer_instance

/-- All tokens of a value are clean. -/
def goodToks (ts : List EnrichTok) : Prop := ∀ t ∈ ts, goodTok t

instance (ts : List EnrichTok) : Decidable (goodToks ts) := by
  unfold goodToks
  infer_instance

/-! ## Lemmas about resource lists -/

theorem rlLookup_append (a b : ResourceList) (k : String) :
    rlLookup (a ++ b) k = (rlLookup a k).or (rlLookup b k) := by
  induction a with
  | nil => simp [rlLookup]
  | cons p rest ih =>
    obtain ⟨k', v⟩ := p
    by_cases hk : k' = k
    · simp [rlLookup, hk]
    · simp [rlLookup, hk, ih]

theorem rlLookup_copyMissing (src : ResourceList) (dst : ResourceList) (k : String) :
    rlLookup (copyMissing dst src) k = (rlLookup dst k).or (rlLookup src k) := by
  induction src generalizing dst with
  | nil => simp [copyMissing, rlLookup]
  | cons p rest ih =>
    obtain ⟨k', v⟩ := p
    show rlLookup (copyMissing (if (rlLookup dst k').isSome then dst else dst ++ [(k', v)]) rest) k = _
    by_cases hd : (rlLookup dst k').isSome
    · rw [if_pos hd, ih]
      by_cases hk : k' = k
      · subst hk
        obtain ⟨w, hw⟩ := Option.isSome_iff_exists.mp hd
        simp [rlLookup, hw]
      · simp [rlLookup, hk]
    · rw [if_neg hd, ih, rlLookup_append]
      have hnone : rlLookup dst k' = none := Option.not_isSome_iff_eq_none.mp hd
      by_cases hk : k' = k
      · subst hk
        simp [rlLookup, hnone]
      · simp [rlLookup, hk]

theorem fillContainer_requests_lookup (c : Container) (r : String) :
    rlLookup (fillContainer c).resources.requests r =
      (rlLookup c.resources.requests r).or (rlLookup c.resources.limits r) := by
  simp [fillContainer, rlLookup_copyMissing]

theorem fillContainer_limits_lookup (c : Container) (r : String) :
    rlLookup (fillContainer c).resources.limits r =
      (rlLookup c.resources.limits r).or
        ((rlLookup c.resources.requests r).or (rlLookup c.resources.limits r)) := by
  simp [fillContainer, rlLookup_copyMissing]

theorem fillContainerRequestsAndLimits_get (cs : List Container) (i : Nat)
    (h1 : i < cs.length) (h2 : i < (fillContainerRequestsAndLimits cs).length) :
    (fillContainerRequestsAndLimits cs).get ⟨i, h2⟩ = fillContainer (cs.get ⟨i, h1⟩) := by
  simp [fillContainerRequestsAndLimits]

/-- Claim C3: after the request-and-limit filling step, every container
has a request for a resource iff it has a limit for it; a resource only in
limits beforehand gets a request equal to that limit, a resource only in
requests beforehand gets a limit equal to that request, and a resource
present in both keeps its original values. -/
theorem fillContainerRequestsAndLimits_c3 (cs : List Container) (i : Nat)
    (h1 : i < cs.length) (h2 : i < (fillContainerRequestsAndLimits cs).length)
    (r : String) :
    ((rlLookup ((fillContainerRequestsAndLimits cs).get ⟨i, h2⟩).resources.requests r).isSome ↔
      (rlLookup ((fillContainerRequestsAndLimits cs).get ⟨i, h2⟩).resources.limits r).isSome)
    ∧ (∀ v, rlLookup (cs.get ⟨i, h1⟩).resources.limits r = some v →
        rlLookup (cs.get ⟨i, h1⟩).resources.requests r = none →
        rlLookup ((fillContainerRequestsAndLimits cs).get ⟨i, h2⟩).resources.requests r = some v ∧
        rlLookup ((fillContainerRequestsAndLimits cs).get ⟨i, h2⟩).resources.limits r = some v)
    ∧ (∀ v, rlLookup (cs.get ⟨i, h1⟩).resources.requests r = some v →
        rlLookup (cs.get ⟨i, h1⟩).resources.limits r = none →
        rlLookup ((fillContainerRequestsAndLimits cs).get ⟨i, h2⟩).resources.limits r = some v ∧
        rlLookup ((fillContainerRequestsAndLimits cs).get ⟨i, h2⟩).resources.requests r = some v)
    ∧ ((rlLookup (cs.get ⟨i, h1⟩).resources.requests r).isSome →
        (rlLookup (cs.get ⟨i, h1⟩).resources.limits r).isSome →
        rlLookup ((fillContainerRequestsAndLimits cs).get ⟨i, h2⟩).resources.requests r =
          rlLookup (cs.get ⟨i, h1⟩).resources.requests r ∧
        rlLookup ((fillContainerRequestsAndLimits cs).get ⟨i, h2⟩).resources.limits r =
          rlLookup (cs.get ⟨i, h1⟩).resources.limits r) := by
  rw [fillContainerRequestsAndLimits_get cs i h1 h2]
  set c := cs.get ⟨i, h1⟩ with hc
  rw [fillContainer_requests_lookup, fillContainer_limits_lookup]
  cases hreq : rlLookup c.resources.requests r <;>
    cases hlim : rlLookup c.resources.limits r <;>
    simp [Option.or]

/-- Witness for C3 at a concrete container that has a cpu limit and no cpu
request. -/
theorem fillContainerRequestsAndLimits_c3_w :
    (0 : Nat) < ([⟨⟨[("cpu", 2)], [("mem", 1)]⟩⟩] : List Container).length
    ∧ rlLookup (([⟨⟨[("cpu", 2)], [("mem", 1)]⟩⟩] : List Container).get
        ⟨0, by decide⟩).resources.limits "cpu" = some 2
    ∧ rlLookup ((fillContainerRequestsAndLimits
        [⟨⟨[("cpu", 2)], [("mem", 1)]⟩⟩]).get ⟨0, by decide⟩).resources.requests "cpu" = some 2
    ∧ rlLookup ((fillContainerRequestsAndLimits
        [⟨⟨[("cpu", 2)], [("mem", 1)]⟩⟩]).get ⟨0, by decide⟩).resources.limits "cpu" = some 2 := by
  refine ⟨by decide, by decide, ?_⟩
  have h := (fillContainerRequestsAndLimits_c3 [⟨⟨[("cpu", 2)], [("mem", 1)]⟩⟩] 0
    (by decide) (by decide) "cpu").2.1 2 (by decide) (by decide)
  exact ⟨h.1, h.2⟩

/-- Claim C4 (code bug): applyDefaultsToPodSpec reads the limits map for
both the hasLimit and the hasRequest test, so at a container that has a
cpu request of 1 but no cpu limit, a configured default of 2 overwrites
the existing request instead of leaving the resource unchanged. -/
theorem applyDefaultLimits_c4_bug :
    rlLookup (Container.mk ⟨[], [("cpu", 1)]⟩).resources.requests "cpu" = some 1
    ∧ applyDefaultsToPodSpec [("cpu", 2)] []
        (some ⟨[⟨⟨[], [("cpu", 1)]⟩⟩], [], []⟩) =
        some ⟨[⟨⟨[("cpu", 2)], [("cpu", 2)]⟩⟩], [], []⟩
    ∧ rlLookup (applyDefaultLimits [("cpu", 2)]
        ⟨⟨[], [("cpu", 1)]⟩⟩).resources.requests "cpu" = some 2 := by
  refine ⟨rfl, ?_, ?_⟩ <;> decide

/-- Claim C10: CancelJobs takes the single-id path whenever the job id is
non-empty, ignoring the queue and job-set fields, and rejects the request
as invalid-argument, touching no collaborator, when the job id is empty
and the queue or the job set id is empty too. -/
theorem cancelJobs_dispatch_c10 (byId : String → CancelReturn)
    (bySet : String → String → CancelReturn) (req : JobCancelRequest) :
    (req.jobId ≠ "" → CancelJobs byId bySet req = byId req.jobId)
    ∧ (req.jobId = "" → req.queue = "" ∨ req.jobSetId = "" →
        CancelJobs byId bySet req = ⟨none, some ⟨.invalidArgument,
          ("specify either job ID or both queue name and job set ID").data⟩⟩) := by
  constructor
  · intro h
    simp [CancelJobs, h]
  · intro h hq
    rcases hq with hq | hq <;> simp [CancelJobs, h, hq]

/-- Witness for C10: a request with a job id set and set fields populated
takes the id path; a request with only a job set takes neither path. -/
theorem cancelJobs_dispatch_c10_w :
    CancelJobs (fun s => ⟨some [s], none⟩) (fun _ _ => ⟨none, none⟩)
        ⟨"07", "set1", "queue1"⟩ = ⟨some ["07"], none⟩
    ∧ CancelJobs (fun s => ⟨some [s], none⟩) (fun _ _ => ⟨none, none⟩)
        ⟨"", "set1", ""⟩ = ⟨none, some ⟨.invalidArgument,
          ("specify either job ID or both queue name and job set ID").data⟩⟩ := by
  constructor
  · exact (cancelJobs_dispatch_c10 (fun s => ⟨some [s], none⟩)
      (fun _ _ => ⟨none, none⟩) ⟨"07", "set1", "queue1"⟩).1 (by decide)
  · exact (cancelJobs_dispatch_c10 (fun s => ⟨some [s], none⟩)
      (fun _ _ => ⟨none, none⟩) ⟨"", "set1", ""⟩).2 rfl (Or.inl rfl)

/-- Claim C8: for an authorized caller with a healthy registry, DeleteQueue
succeeds iff the queue has no active job sets; when the list is non-empty
it fails with failed-precondition and the registry delete is never
invoked. -/
theorem deleteQueue_c8 (checker : PrincipalPermissionChecker) (p : Principal)
    (active : List JobSetInfo) (deleteErr : Option (List Char)) (queueName : String)
    (hperm : userHasPermission checker p .deleteQueue = true) :
    ((DeleteQueue checker p (.ok active) none queueName).err = none ↔ active = [])
    ∧ (active ≠ [] →
        DeleteQueue checker p (.ok active) deleteErr queueName =
          ⟨some ⟨.failedPrecondition,
            ("error deleting queue " ++ queueName ++ ": queue is not empty").data⟩, false⟩) := by
  constructor
  · cases active with
    | nil => simp [DeleteQueue, checkPermission, hperm]
    | cons a rest => simp [DeleteQueue, checkPermission, hperm]
  · intro hne
    cases active with
    | nil => exact absurd rfl hne
    | cons a rest => simp [DeleteQueue, checkPermission, hperm]

/-- Witness for C8: an admin caller, a queue with one active job set. -/
theorem deleteQueue_c8_w :
    userHasPermission ⟨fun _ => ["admins"], fun _ => [], fun _ => []⟩
        ⟨"anna", ["admins"], [], []⟩ .deleteQueue = true
    ∧ DeleteQueue ⟨fun _ => ["admins"], fun _ => [], fun _ => []⟩
        ⟨"anna", ["admins"], [], []⟩ (.ok [⟨"set1", 1, 0⟩]) none "q1" =
        ⟨some ⟨.failedPrecondition,
          ("error deleting queue " ++ "q1" ++ ": queue is not empty").data⟩, false⟩ := by
  refine ⟨by decide, ?_⟩
  exact (deleteQueue_c8 ⟨fun _ => ["admins"], fun _ => [], fun _ => []⟩
    ⟨"anna", ["admins"], [], []⟩ [⟨"set1", 1, 0⟩] none "q1" (by decide)).2 (by decide)

theorem userOwners_newPermissionsFromOwners (n : String) (pf : Rat)
    (rl : List (String × Rat)) (owners groupOwners : List String) :
    Queue.userOwners ⟨n, pf, rl, [newPermissionsFromOwners owners groupOwners]⟩ = owners := by
  simp only [Queue.userOwners, newPermissionsFromOwners, newPermissionSubjectsFromOwners,
    List.map_cons, List.map_nil, List.flatten_cons, List.flatten_nil,
    List.filterMap_append, List.filterMap_map, List.append_nil]
  have h1 : ((fun s : PermissionSubject =>
      if s.kind = PermissionSubjectKind.user then some s.name else none) ∘
      fun o => (⟨PermissionSubjectKind.user, o⟩ : PermissionSubject)) = some := by
    funext o
    simp
  have h2 : ((fun s : PermissionSubject =>
      if s.kind = PermissionSubjectKind.user then some s.name else none) ∘
      fun g => (⟨PermissionSubjectKind.group, g⟩ : PermissionSubject)) =
      fun _ => (none : Option String) := by
    funext g
    simp
  rw [h1, h2]
  simp

/-- Claim C2: a SubmitJobs request naming a missing queue auto-creates it
iff auto-creation is enabled and the caller holds submit-any-jobs,
otherwise it fails not-found; the auto-created queue lists the caller as
its sole user owner. -/
theorem getQueueOrCreate_c2 (checker : PrincipalPermissionChecker)
    (cfg : QueueManagementConfig) (p : Principal) (repo : QueueRepo)
    (queueName : String) (hmiss : repo queueName = none) :
    (((getQueueOrCreate checker cfg p repo queueName).2 queueName).isSome ↔
      (cfg.autoCreateQueues = true ∧ userHasPermission checker p .submitAnyJobs = true))
    ∧ (cfg.autoCreateQueues = false ∨ userHasPermission checker p .submitAnyJobs = false →
        (getQueueOrCreate checker cfg p repo queueName).1 =
          .error ⟨.notFound, ("Queue " ++ queueName ++ " not found").data⟩
        ∧ (getQueueOrCreate checker cfg p repo queueName).2 = repo)
    ∧ (∀ q, (getQueueOrCreate checker cfg p repo queueName).1 = .ok q →
        q.userOwners = [p.name]) := by
  by_cases hauto : cfg.autoCreateQueues = true
  · by_cases hub : userHasPermission checker p .submitAnyJobs = true
    · refine ⟨?_, ?_, ?_⟩
      · simp [getQueueOrCreate, hmiss, hauto, hub]
      · rintro (h | h)
        · rw [hauto] at h; cases h
        · rw [hub] at h; cases h
      · intro q hq
        simp [getQueueOrCreate, hmiss, hauto, hub] at hq
        rw [← hq]
        exact userOwners_newPermissionsFromOwners _ _ _ _ _
    · have hub' : userHasPermission checker p .submitAnyJobs = false :=
        Bool.not_eq_true _ ▸ Bool.of_not_eq_true hub
      refine ⟨?_, ?_, ?_⟩
      · simp [getQueueOrCreate, hmiss, hauto, hub', hub]
      · intro _
        constructor <;> simp [getQueueOrCreate, hmiss, hauto, hub']
      · intro q hq
        simp [getQueueOrCreate, hmiss, hauto, hub'] at hq
  · have hauto' : cfg.autoCreateQueues = false :=
      Bool.not_eq_true _ ▸ Bool.of_not_eq_true hauto
    refine ⟨?_, ?_, ?_⟩
    · simp [getQueueOrCreate, hmiss, hauto', hmiss]
    · intro _
      constructor <;> simp [getQueueOrCreate, hmiss, hauto']
    · intro q hq
      simp [getQueueOrCreate, hmiss, hauto'] at hq

/-- Witness for C2: auto-creation enabled, caller anna with
submit-any-jobs through a scope; the created queue has anna as its sole
user owner. -/
theorem getQueueOrCreate_c2_w :
    ((fun _ => none : QueueRepo) "q9") = none
    ∧ (((getQueueOrCreate ⟨fun _ => [], fun _ => ["submit-scope"], fun _ => []⟩
        ⟨true, 1⟩ ⟨"anna", ["admins"], ["submit-scope"], []⟩ (fun _ => none) "q9").2 "q9").isSome ↔
        (true = true ∧ userHasPermission ⟨fun _ => [], fun _ => ["submit-scope"], fun _ => []⟩
          ⟨"anna", ["admins"], ["submit-scope"], []⟩ .submitAnyJobs = true))
    ∧ (∀ q, (getQueueOrCreate ⟨fun _ => [], fun _ => ["submit-scope"], fun _ => []⟩
        ⟨true, 1⟩ ⟨"anna", ["admins"], ["submit-scope"], []⟩ (fun _ => none) "q9").1 = .ok q →
        q.userOwners = ["anna"]) := by
  refine ⟨rfl, ?_, ?_⟩
  · exact (getQueueOrCreate_c2 ⟨fun _ => [], fun _ => ["submit-scope"], fun _ => []⟩
      ⟨true, 1⟩ ⟨"anna", ["admins"], ["submit-scope"], []⟩ (fun _ => none) "q9" rfl).1
  · exact (getQueueOrCreate_c2 ⟨fun _ => [], fun _ => ["submit-scope"], fun _ => []⟩
      ⟨true, 1⟩ ⟨"anna", ["admins"], ["submit-scope"], []⟩ (fun _ => none) "q9" rfl).2.2

/-! ## Lemmas about the set-scoped cancel loop -/

theorem batchChunks_flatten (n : Nat) (hn : n ≠ 0) (xs : List String) :
    (batchChunks n xs).flatten = xs := by
  have H : ∀ m, ∀ ys : List String, ys.length = m → (batchChunks n ys).flatten = ys := by
    intro m
    induction m using Nat.strong_induction_on with
    | _ m ih =>
      intro ys hlen
      rw [batchChunks]
      by_cases hy : ys = []
      · simp [hy]
      · rw [dif_neg (by simp [hn, hy])]
        have hpos : 0 < ys.length := List.length_pos.mpr hy
        have hdrop : (ys.drop n).length < m := by
          simp only [List.length_drop]
          omega
        simp only [List.flatten_cons]
        rw [ih (ys.drop n).length (hlen ▸ hdrop) (ys.drop n) rfl]
        exact List.take_append_drop n ys
  exact H xs.length xs rfl

theorem batchChunks_size (n : Nat) (xs : List String) :
    ∀ b ∈ batchChunks n xs, b.length ≤ n := by
  have H : ∀ m, ∀ ys : List String, ys.length = m → ∀ b ∈ batchChunks n ys, b.length ≤ n := by
    intro m
    induction m using Nat.strong_induction_on with
    | _ m ih =>
      intro ys hlen b hb
      rw [batchChunks] at hb
      by_cases hcond : n = 0 ∨ ys = []
      · rw [dif_pos hcond] at hb
        cases hb
      · rw [dif_neg hcond] at hb
        have hn : n ≠ 0 := fun h => hcond (Or.inl h)
        have hy : ys ≠ [] := fun h => hcond (Or.inr h)
        have hpos : 0 < ys.length := List.length_pos.mpr hy
        cases hb with
        | head => simp [List.length_take]
        | tail _ hmem =>
          have hdrop : (ys.drop n).length < m := by
            simp only [List.length_drop]
            omega
          exact ih (ys.drop n).length (hlen ▸ hdrop) (ys.drop n) rfl b hmem
  exact H xs.length xs rfl

theorem cancelBatchLoop_deadline (outcome : Nat → BatchOutcome)
    (closeToDeadline : Nat → Bool) (res : Nat → List String) :
    ∀ (k : Nat) (chunks : List (List String)) (i : Nat) (acc : List String),
    k < chunks.length →
    (∀ j, j ≤ k → outcome (i + j) = .ok (res (i + j))) →
    (∀ j, j < k → closeToDeadline (i + j) = false) →
    closeToDeadline (i + k) = true →
    cancelBatchLoop outcome closeToDeadline chunks i acc =
      ⟨some (acc ++ joinRes res i k),
        some ⟨.deadlineExceeded, ("deadline exceeded").data⟩⟩ := by
  intro k
  induction k with
  | zero =>
    intro chunks i acc hk hok _ hclk
    cases chunks with
    | nil => cases hk
    | cons b rest =>
      have h0 := hok 0 (Nat.le_refl 0)
      rw [Nat.add_zero] at h0 hclk
      simp [cancelBatchLoop, h0, hclk, joinRes]
  | succ k ih =>
    intro chunks i acc hk hok hcl hclk
    cases chunks with
    | nil => cases hk
    | cons b rest =>
      have h0 := hok 0 (Nat.zero_le _)
      have hc0 := hcl 0 (Nat.succ_pos k)
      rw [Nat.add_zero] at h0 hc0
      have hrest : k < rest.length := by
        simp only [List.length_cons] at hk
        omega
      have hok' : ∀ j, j ≤ k → outcome (i + 1 + j) = .ok (res (i + 1 + j)) := by
        intro j hj
        have := hok (j + 1) (by omega)
        rwa [show i + (j + 1) = i + 1 + j by omega] at this
      have hcl' : ∀ j, j < k → closeToDeadline (i + 1 + j) = false := by
        intro j hj
        have := hcl (j + 1) (by omega)
        rwa [show i + (j + 1) = i + 1 + j by omega] at this
      have hclk' : closeToDeadline (i + 1 + k) = true := by
        rwa [show i + (k + 1) = i + 1 + k by omega] at hclk
      have hrec := ih rest (i + 1) (acc ++ res i) hrest hok' hcl' hclk'
      simp only [cancelBatchLoop, h0, hc0]
      rw [if_neg (by simp [hc0])]
      rw [hrec]
      simp [joinRes, List.append_assoc]

/-- Claim C7: the set-scoped cancel processes the active ids in batches of
the configured size, and when the deadline margin is first hit after
batch k, the call returns deadline-exceeded together with exactly the ids
cancelled by batches 0 through k. -/
theorem cancelJobsByQueueAndSet_c7 (outcome : Nat → BatchOutcome)
    (closeToDeadline : Nat → Bool) (res : Nat → List String) (ids : List String)
    (n k : Nat) (hn : n ≠ 0) (hk : k < (batchChunks n ids).length)
    (hok : ∀ j, j ≤ k → outcome j = .ok (res j))
    (hcl : ∀ j, j < k → closeToDeadline j = false)
    (hclk : closeToDeadline k = true) :
    cancelJobsByQueueAndSet outcome closeToDeadline (.ok ids) n =
      ⟨some (joinRes res 0 k),
        some ⟨.deadlineExceeded, ("deadline exceeded").data⟩⟩
    ∧ (batchChunks n ids).flatten = ids
    ∧ (∀ b ∈ batchChunks n ids, b.length ≤ n) := by
  refine ⟨?_, batchChunks_flatten n hn ids, batchChunks_size n ids⟩
  show cancelBatchLoop outcome closeToDeadline (batchChunks n ids) 0 [] = _
  have := cancelBatchLoop_deadline outcome closeToDeadline res k (batchChunks n ids) 0 []
    hk (by simpa using hok) (by simpa using hcl) (by simpa using hclk)
  simpa using this

/-- Witness for C7: four ids, batch size two, the deadline margin hit
right after the first batch; the partial result is exactly that batch. -/
theorem cancelJobsByQueueAndSet_c7_w :
    cancelJobsByQueueAndSet (fun _ => .ok ["a", "b"]) (fun _ => true)
        (.ok ["a", "b", "c", "d"]) 2 =
      ⟨some ["a", "b"], some ⟨.deadlineExceeded, ("deadline exceeded").data⟩⟩
    ∧ (batchChunks 2 ["a", "b", "c", "d"]).flatten = ["a", "b", "c", "d"]
    ∧ (∀ b ∈ batchChunks 2 ["a", "b", "c", "d"], b.length ≤ 2) := by
  have h := cancelJobsByQueueAndSet_c7 (fun _ => .ok ["a", "b"]) (fun _ => true)
    (fun _ => ["a", "b"]) ["a", "b", "c", "d"] 2 0 (by decide)
    (by rw [batchChunks]; norm_num; rw [batchChunks]; norm_num; rw [batchChunks]; simp)
    (fun j _ => rfl) (fun j hj => absurd hj (Nat.not_lt_zero j)) rfl
  exact ⟨h.1, h.2.1, h.2.2⟩

/-! ## Lemmas about the two-tier permission checks -/

theorem checkPermsLoop_cons_global (checker : PrincipalPermissionChecker)
    (p : Principal) (repo : QueueRepo) (anyPerm : Permission) (verb : PermissionVerb)
    (name : String) (rest : List String) (qq : Queue) (hqq : repo name = some qq)
    (hg : userHasPermission checker p anyPerm = true) :
    checkPermsLoop checker p repo anyPerm verb (name :: rest) =
      checkPermsLoop checker p repo anyPerm verb rest := by
  simp [checkPermsLoop, hqq, checkPermission, hg]

theorem checkPermsLoop_cons_queueTier (checker : PrincipalPermissionChecker)
    (p : Principal) (repo : QueueRepo) (anyPerm : Permission) (verb : PermissionVerb)
    (name : String) (rest : List String) (qq : Queue) (hqq : repo name = some qq)
    (hg : userHasPermission checker p anyPerm = false)
    (hq : (principalSubjects p).any (fun s => qq.hasPermission s verb) = true) :
    checkPermsLoop checker p repo anyPerm verb (name :: rest) =
      checkPermsLoop checker p repo anyPerm verb rest := by
  simp [checkPermsLoop, hqq, checkPermission, checkQueuePermission, hg, hq]

theorem checkPermsLoop_cons_denied (checker : PrincipalPermissionChecker)
    (p : Principal) (repo : QueueRepo) (anyPerm : Permission) (verb : PermissionVerb)
    (name : String) (rest : List String) (qq : Queue) (hqq : repo name = some qq)
    (hg : userHasPermission checker p anyPerm = false)
    (hq : (principalSubjects p).any (fun s => qq.hasPermission s verb) = false) :
    checkPermsLoop checker p repo anyPerm verb (name :: rest) =
      .denied (mergePermissionErrors ⟨globalPermErrMsg p anyPerm⟩
        ⟨queuePermErrMsg p qq verb⟩) := by
  simp [checkPermsLoop, hqq, checkPermission, checkQueuePermission, hg, hq]

theorem checkPermsLoop_ok_iff (checker : PrincipalPermissionChecker) (p : Principal)
    (repo : QueueRepo) (anyPerm : Permission) (verb : PermissionVerb)
    (names : List String) (hall : ∀ name ∈ names, (repo name).isSome) :
    checkPermsLoop checker p repo anyPerm verb names = .ok ↔
      ∀ name ∈ names, ∀ qq, repo name = some qq →
        (userHasPermission checker p anyPerm = true ∨
         (principalSubjects p).any (fun s => qq.hasPermission s verb) = true) := by
  induction names with
  | nil => simp [checkPermsLoop]
  | cons name rest ih =>
    have hsome := hall name (List.mem_cons_self name rest)
    obtain ⟨qq, hqq⟩ := Option.isSome_iff_exists.mp hsome
    have hall' : ∀ x ∈ rest, (repo x).isSome := fun x hx =>
      hall x (List.mem_cons_of_mem _ hx)
    by_cases hg : userHasPermission checker p anyPerm = true
    · rw [checkPermsLoop_cons_global checker p repo anyPerm verb name rest qq hqq hg,
        ih hall']
      constructor
      · intro h x hx qq' hqq'
        cases hx with
        | head => exact Or.inl hg
        | tail _ hx' => exact h x hx' qq' hqq'
      · intro h x hx qq' hqq'
        exact h x (List.mem_cons_of_mem _ hx) qq' hqq'
    · have hg' : userHasPermission checker p anyPerm = false := by
        simpa using hg
      by_cases hq : (principalSubjects p).any (fun s => qq.hasPermission s verb) = true
      · rw [checkPermsLoop_cons_queueTier checker p repo anyPerm verb name rest qq hqq
          hg' hq, ih hall']
        constructor
        · intro h x hx qq' hqq'
          cases hx with
          | head =>
            rw [hqq'] at hqq
            cases hqq
            exact Or.inr hq
          | tail _ hx' => exact h x hx' qq' hqq'
        · intro h x hx qq' hqq'
          exact h x (List.mem_cons_of_mem _ hx) qq' hqq'
      · have hq' : (principalSubjects p).any (fun s => qq.hasPermission s verb) = false := by
          simpa using hq
        rw [checkPermsLoop_cons_denied checker p repo anyPerm verb name rest qq hqq hg' hq']
        constructor
        · intro h
          cases h
        · intro h
          rcases h name (List.mem_cons_self name rest) qq hqq with hh | hh
          · rw [hh] at hg'
            cases hg'
          · rw [hh] at hq'
            cases hq'

theorem checkPermsLoop_denied (checker : PrincipalPermissionChecker) (p : Principal)
    (repo : QueueRepo) (anyPerm : Permission) (verb : PermissionVerb)
    (names : List String) (e : ErrNoPermission)
    (hden : checkPermsLoop checker p repo anyPerm verb names = .denied e) :
    ∃ name qq, name ∈ names ∧ repo name = some qq ∧
      userHasPermission checker p anyPerm = false ∧
      (principalSubjects p).any (fun s => qq.hasPermission s verb) = false ∧
      globalPermErrMsg p anyPerm <:+: e.message ∧
      queuePermErrMsg p qq verb <:+: e.message := by
  induction names with
  | nil => cases hden
  | cons name rest ih =>
    by_cases hn : (repo name).isSome
    · obtain ⟨qq, hqq⟩ := Option.isSome_iff_exists.mp hn
      by_cases hg : userHasPermission checker p anyPerm = true
      · rw [checkPermsLoop_cons_global checker p repo anyPerm verb name rest qq hqq hg]
          at hden
        obtain ⟨x, qq', hx, h⟩ := ih hden
        exact ⟨x, qq', List.mem_cons_of_mem _ hx, h⟩
      · have hg' : userHasPermission checker p anyPerm = false := by simpa using hg
        by_cases hq : (principalSubjects p).any (fun s => qq.hasPermission s verb) = true
        · rw [checkPermsLoop_cons_queueTier checker p repo anyPerm verb name rest qq hqq
            hg' hq] at hden
          obtain ⟨x, qq', hx, h⟩ := ih hden
          exact ⟨x, qq', List.mem_cons_of_mem _ hx, h⟩
        · have hq' : (principalSubjects p).any (fun s => qq.hasPermission s verb) = false := by
            simpa using hq
          rw [checkPermsLoop_cons_denied checker p repo anyPerm verb name rest qq hqq
            hg' hq'] at hden
          cases hden
          refine ⟨name, qq, List.mem_cons_self name rest, hqq, hg', hq', ?_, ?_⟩
          · exact ⟨[], ("; ").data ++ queuePermErrMsg p qq verb, by
              simp [mergePermissionErrors]⟩
          · exact ⟨globalPermErrMsg p anyPerm ++ ("; ").data, [], by
              simp [mergePermissionErrors]⟩
    · have hnone : repo name = none := Option.not_isSome_iff_eq_none.mp hn
      simp only [checkPermsLoop, hnone] at hden
      cases hden

theorem submitJobsReport_no_denied (oracles : SubmitOracles) (repo : QueueRepo)
    (respItems : List JobSubmitResponseItem) (failures : List (Job × List Char))
    (duplicates : List SubmitJobResult) (created : List Job) (jobs : List Job)
    (st : Status)
    (hst : (submitJobsReport oracles repo respItems failures duplicates created jobs).err
      = some st) : st.code ≠ .permissionDenied := by
  revert hst
  unfold submitJobsReport
  repeat' split
  all_goals intro hst
  all_goals try exact Option.noConfusion hst
  all_goals (have h := Option.some.inj hst; rw [← h]; exact fun hh => Code.noConfusion hh)

theorem submitJobsAuthorized_no_denied (deps : SubmitDeps) (oracles : SubmitOracles)
    (repo : QueueRepo) (p : Principal) (q : Queue) (req : JobSubmitRequest)
    (st : Status) (hst : (submitJobsAuthorized deps oracles repo p q req).err = some st) :
    st.code ≠ .permissionDenied := by
  revert hst
  unfold submitJobsAuthorized submitJobsWrite
  repeat' split
  all_goals intro hst
  all_goals try exact submitJobsReport_no_denied _ _ _ _ _ _ _ _ hst
  all_goals (have h := Option.some.inj hst; rw [← h]; exact fun hh => Code.noConfusion hh)

theorem SubmitJobs_found (checker : PrincipalPermissionChecker)
    (cfg : QueueManagementConfig) (deps : SubmitDeps) (oracles : SubmitOracles)
    (repo : QueueRepo) (p : Principal) (q : Queue) (req : JobSubmitRequest)
    (hfound : repo req.queue = some q)
    (hauth : userHasPermission checker p .submitAnyJobs = true ∨
      (principalSubjects p).any (fun s => q.hasPermission s .submit) = true) :
    SubmitJobs checker cfg deps oracles repo p req =
      submitJobsAuthorized deps oracles repo p q req := by
  rcases hauth with hg | hq
  · simp [SubmitJobs, getQueueOrCreate, hfound, checkPermission, hg]
  · by_cases hg : userHasPermission checker p .submitAnyJobs = true
    · simp [SubmitJobs, getQueueOrCreate, hfound, checkPermission, hg]
    · have hg' : userHasPermission checker p .submitAnyJobs = false := by simpa using hg
      simp [SubmitJobs, getQueueOrCreate, hfound, checkPermission, checkQueuePermission,
        hg', hq]

theorem SubmitJobs_denied (checker : PrincipalPermissionChecker)
    (cfg : QueueManagementConfig) (deps : SubmitDeps) (oracles : SubmitOracles)
    (repo : QueueRepo) (p : Principal) (q : Queue) (req : JobSubmitRequest)
    (hfound : repo req.queue = some q)
    (hg : userHasPermission checker p .submitAnyJobs = false)
    (hq : (principalSubjects p).any (fun s => q.hasPermission s .submit) = false) :
    SubmitJobs checker cfg deps oracles repo p req =
      ⟨none, some ⟨.permissionDenied,
        ("error submitting job in queue " ++ req.queue ++ ": ").data ++
          (mergePermissionErrors ⟨globalPermErrMsg p .submitAnyJobs⟩
            ⟨queuePermErrMsg p q .submit⟩).message⟩,
        repo, []⟩ := by
  simp [SubmitJobs, getQueueOrCreate, hfound, checkPermission, checkQueuePermission, hg, hq]

/-- Claim C1: SubmitJobs (and the cancel and reprioritize permission
checks) return permission-denied exactly when the caller lacks the global
any-permission for the verb and the queue grants the verb to no subject
matching the caller; when both tiers fail, the returned message contains
both refusals, merged. -/
theorem twoTierAuthorization_c1 (checker : PrincipalPermissionChecker)
    (cfg : QueueManagementConfig) (deps : SubmitDeps) (oracles : SubmitOracles)
    (repo : QueueRepo) (p : Principal) (q : Queue) (req : JobSubmitRequest)
    (jobs : List Job) (hfound : repo req.queue = some q)
    (hall : ∀ name ∈ distinctQueues jobs, (repo name).isSome) :
    ((∃ st, (SubmitJobs checker cfg deps oracles repo p req).err = some st ∧
        st.code = .permissionDenied) ↔
      (userHasPermission checker p .submitAnyJobs = false ∧
       (principalSubjects p).any (fun s => q.hasPermission s .submit) = false))
    ∧ (userHasPermission checker p .submitAnyJobs = false →
       (principalSubjects p).any (fun s => q.hasPermission s .submit) = false →
       ∃ st, (SubmitJobs checker cfg deps oracles repo p req).err = some st ∧
         st.code = .permissionDenied ∧
         globalPermErrMsg p .submitAnyJobs <:+: st.message ∧
         queuePermErrMsg p q .submit <:+: st.message)
    ∧ (checkCancelPerms checker p repo jobs = .ok ↔
        ∀ name ∈ distinctQueues jobs, ∀ qq, repo name = some qq →
          (userHasPermission checker p .cancelAnyJobs = true ∨
           (principalSubjects p).any (fun s => qq.hasPermission s .cancel) = true))
    ∧ (∀ e, checkCancelPerms checker p repo jobs = .denied e →
        ∃ name qq, name ∈ distinctQueues jobs ∧ repo name = some qq ∧
          userHasPermission checker p .cancelAnyJobs = false ∧
          (principalSubjects p).any (fun s => qq.hasPermission s .cancel) = false ∧
          globalPermErrMsg p .cancelAnyJobs <:+: e.message ∧
          queuePermErrMsg p qq .cancel <:+: e.message)
    ∧ (checkReprioritizePerms checker p repo jobs = .ok ↔
        ∀ name ∈ distinctQueues jobs, ∀ qq, repo name = some qq →
          (userHasPermission checker p .reprioritizeAnyJobs = true ∨
           (principalSubjects p).any (fun s => qq.hasPermission s .reprioritize) = true))
    ∧ (∀ e, checkReprioritizePerms checker p repo jobs = .denied e →
        ∃ name qq, name ∈ distinctQueues jobs ∧ repo name = some qq ∧
          userHasPermission checker p .reprioritizeAnyJobs = false ∧
          (principalSubjects p).any (fun s => qq.hasPermission s .reprioritize) = false ∧
          globalPermErrMsg p .reprioritizeAnyJobs <:+: e.message ∧
          queuePermErrMsg p qq .reprioritize <:+: e.message) := by
  have hdenied : userHasPermission checker p .submitAnyJobs = false →
      (principalSubjects p).any (fun s => q.hasPermission s .submit) = false →
      ∃ st, (SubmitJobs checker cfg deps oracles repo p req).err = some st ∧
        st.code = .permissionDenied ∧
        globalPermErrMsg p .submitAnyJobs <:+: st.message ∧
        queuePermErrMsg p q .submit <:+: st.message := by
    intro hg hq
    rw [SubmitJobs_denied checker cfg deps oracles repo p q req hfound hg hq]
    refine ⟨_, rfl, rfl, ?_, ?_⟩
    · exact ⟨("error submitting job in queue " ++ req.queue ++ ": ").data,
        ("; ").data ++ queuePermErrMsg p q .submit, by
          simp [mergePermissionErrors, globalPermErrMsg]⟩
    · exact ⟨("error submitting job in queue " ++ req.queue ++ ": ").data ++
        globalPermErrMsg p .submitAnyJobs ++ ("; ").data, [], by
          simp [mergePermissionErrors, queuePermErrMsg]⟩
  refine ⟨?_, hdenied, checkPermsLoop_ok_iff checker p repo .cancelAnyJobs .cancel _ hall,
    fun e he => checkPermsLoop_denied checker p repo .cancelAnyJobs .cancel _ e he,
    checkPermsLoop_ok_iff checker p repo .reprioritizeAnyJobs .reprioritize _ hall,
    fun e he => checkPermsLoop_denied checker p repo .reprioritizeAnyJobs .reprioritize _ e he⟩
  constructor
  · rintro ⟨st, hst, hcode⟩
    by_cases hg : userHasPermission checker p .submitAnyJobs = true
    · exfalso
      rw [SubmitJobs_found checker cfg deps oracles repo p q req hfound (Or.inl hg)] at hst
      exact submitJobsAuthorized_no_denied deps oracles repo p q req st hst hcode
    · have hg' : userHasPermission checker p .submitAnyJobs = false := by simpa using hg
      by_cases hq : (principalSubjects p).any (fun s => q.hasPermission s .submit) = true
      · exfalso
        rw [SubmitJobs_found checker cfg deps oracles repo p q req hfound (Or.inr hq)] at hst
        exact submitJobsAuthorized_no_denied deps oracles repo p q req st hst hcode
      · exact ⟨hg', by simpa using hq⟩
  · rintro ⟨hg, hq⟩
    obtain ⟨st, hst, hcode, _⟩ := hdenied hg hq
    exact ⟨st, hst, hcode⟩

/-- Witness for C1: a caller with no global grants, a queue with no
bindings; the submit call is denied with both refusals in the message, and
the cancel-permission loop on no jobs passes vacuously. -/
theorem twoTierAuthorization_c1_w :
    (∃ st, (SubmitJobs ⟨fun _ => [], fun _ => [], fun _ => []⟩ ⟨false, 1⟩
        ⟨fun _ => none, [], [], 0, fun _ => "01"⟩
        ⟨none, fun _ => none, fun _ => .ok [], none, none, none, none⟩
        (fun n => if n = "q1" then some ⟨"q1", 1, [], []⟩ else none)
        ⟨"bob", ["devs"], [], []⟩ ⟨"q1", "js", []⟩).err = some st ∧
      st.code = .permissionDenied ∧
      globalPermErrMsg ⟨"bob", ["devs"], [], []⟩ .submitAnyJobs <:+: st.message ∧
      queuePermErrMsg ⟨"bob", ["devs"], [], []⟩ ⟨"q1", 1, [], []⟩ .submit <:+: st.message)
    ∧ checkCancelPerms ⟨fun _ => [], fun _ => [], fun _ => []⟩ ⟨"bob", ["devs"], [], []⟩
        (fun n => if n = "q1" then some ⟨"q1", 1, [], []⟩ else none) [] = .ok := by
  have h := twoTierAuthorization_c1 ⟨fun _ => [], fun _ => [], fun _ => []⟩ ⟨false, 1⟩
    ⟨fun _ => none, [], [], 0, fun _ => "01"⟩
    ⟨none, fun _ => none, fun _ => .ok [], none, none, none, none⟩
    (fun n => if n = "q1" then some ⟨"q1", 1, [], []⟩ else none)
    ⟨"bob", ["devs"], [], []⟩ ⟨"q1", 1, [], []⟩ ⟨"q1", "js", []⟩ []
    (by decide) (by intro name hn; exact absurd hn (by simp [distinctQueues]))
  refine ⟨h.2.1 (by decide) (by decide), ?_⟩
  exact h.2.2.1.mpr (by intro name hn; exact absurd hn (by simp [distinctQueues]))

/-! ## Lemmas about job creation -/

theorem createJobFromItem_badShape (deps : SubmitDeps) (req : JobSubmitRequest)
    (owner : String) (groups : List String) (i : Nat) (item : JobSubmitRequestItem)
    (hbad : badShape item) :
    ∃ e, createJobFromItem deps req owner groups i item = .error e := by
  rcases hbad with ⟨hs, hn⟩ | ⟨hs, hn⟩
  · exact ⟨_, by
      unfold createJobFromItem
      rw [if_pos (by simp [hs, hn])]⟩
  · exact ⟨_, by
      unfold createJobFromItem
      rw [if_neg (by simp [hs]),
        if_pos (by simp [JobSubmitRequestItem.getAllPodSpecs, hs, hn])]⟩

theorem createJobsLoop_badShape (deps : SubmitDeps) (req : JobSubmitRequest)
    (owner : String) (groups : List String) (items : List JobSubmitRequestItem)
    (hbad : ∃ item ∈ items, badShape item) :
    ∀ i, ∃ e, createJobsLoop deps req owner groups items i = .error e := by
  induction items with
  | nil =>
    obtain ⟨item, hmem, _⟩ := hbad
    cases hmem
  | cons head rest ih =>
    intro i
    obtain ⟨item, hmem, hb⟩ := hbad
    cases hmem with
    | head =>
      obtain ⟨e, he⟩ := createJobFromItem_badShape deps req owner groups i head hb
      exact ⟨e, by unfold createJobsLoop; rw [he]; rfl⟩
    | tail _ hmem' =>
      cases hhead : createJobFromItem deps req owner groups i head with
      | error e => exact ⟨e, by unfold createJobsLoop; rw [hhead]; rfl⟩
      | ok j =>
        obtain ⟨e, he⟩ := ih ⟨item, hmem', hb⟩ (i + 1)
        exact ⟨e, by unfold createJobsLoop; rw [hhead]; show createJobsLoop _ _ _ _ _ _ >>= _ = _; rw [he]; rfl⟩

theorem createJobsObjects_badShape (deps : SubmitDeps) (req : JobSubmitRequest)
    (owner : String) (groups : List String)
    (hbad : ∃ item ∈ req.jobRequestItems, badShape item) :
    ∃ e, createJobsObjects deps req owner groups = .error e := by
  unfold createJobsObjects
  by_cases hjs : req.jobSetId = ""
  · exact ⟨_, by rw [if_pos hjs]⟩
  · rw [if_neg hjs]
    by_cases hq : req.queue = ""
    · exact ⟨_, by rw [if_pos hq]⟩
    · rw [if_neg hq]
      exact createJobsLoop_badShape deps req owner groups req.jobRequestItems hbad 0

/-- Claim C5: a SubmitJobs request with an item that has both pod-spec
fields, or neither, is rejected as invalid-argument without any job-store
write or event-sink append. -/
theorem submitJobs_c5 (checker : PrincipalPermissionChecker)
    (cfg : QueueManagementConfig) (deps : SubmitDeps) (oracles : SubmitOracles)
    (repo : QueueRepo) (p : Principal) (q : Queue) (req : JobSubmitRequest)
    (hfound : repo req.queue = some q)
    (hauth : userHasPermission checker p .submitAnyJobs = true ∨
      (principalSubjects p).any (fun s => q.hasPermission s .submit) = true)
    (hbad : ∃ item ∈ req.jobRequestItems, badShape item) :
    (∃ st, (SubmitJobs checker cfg deps oracles repo p req).err = some st ∧
      st.code = .invalidArgument)
    ∧ (SubmitJobs checker cfg deps oracles repo p req).effects = []
    ∧ (SubmitJobs checker cfg deps oracles repo p req).resp = none := by
  rw [SubmitJobs_found checker cfg deps oracles repo p q req hfound hauth]
  obtain ⟨e, he⟩ := createJobsObjects_badShape deps req p.name (computeOwnershipGroups q p) hbad
  unfold submitJobsAuthorized
  rw [he]
  exact ⟨⟨_, rfl, rfl⟩, rfl, rfl⟩

/-- Witness for C5: an item carrying both a singular pod spec and a pod
spec list; an authorized caller. -/
theorem submitJobs_c5_w :
    (∃ st, (SubmitJobs ⟨fun _ => [], fun _ => ["s"], fun _ => []⟩ ⟨false, 1⟩
        ⟨fun _ => none, [], [], 0, fun _ => "01"⟩
        ⟨none, fun _ => none, fun _ => .ok [], none, none, none, none⟩
        (fun n => if n = "q1" then some ⟨"q1", 1, [], []⟩ else none)
        ⟨"anna", [], ["s"], []⟩
        ⟨"q1", "js", [⟨0, "", "", [], [], [], some ⟨[], [], []⟩, [⟨[], [], []⟩], [], []⟩]⟩).err
        = some st ∧ st.code = .invalidArgument)
    ∧ (SubmitJobs ⟨fun _ => [], fun _ => ["s"], fun _ => []⟩ ⟨false, 1⟩
        ⟨fun _ => none, [], [], 0, fun _ => "01"⟩
        ⟨none, fun _ => none, fun _ => .ok [], none, none, none, none⟩
        (fun n => if n = "q1" then some ⟨"q1", 1, [], []⟩ else none)
        ⟨"anna", [], ["s"], []⟩
        ⟨"q1", "js", [⟨0, "", "", [], [], [], some ⟨[], [], []⟩, [⟨[], [], []⟩], [], []⟩]⟩).effects
        = [] := by
  have h := submitJobs_c5 ⟨fun _ => [], fun _ => ["s"], fun _ => []⟩ ⟨false, 1⟩
    ⟨fun _ => none, [], [], 0, fun _ => "01"⟩
    ⟨none, fun _ => none, fun _ => .ok [], none, none, none, none⟩
    (fun n => if n = "q1" then some ⟨"q1", 1, [], []⟩ else none)
    ⟨"anna", [], ["s"], []⟩ ⟨"q1", 1, [], []⟩
    ⟨"q1", "js", [⟨0, "", "", [], [], [], some ⟨[], [], []⟩, [⟨[], [], []⟩], [], []⟩]⟩
    (by decide) (Or.inl (by decide))
    ⟨⟨0, "", "", [], [], [], some ⟨[], [], []⟩, [⟨[], [], []⟩], [], []⟩,
      List.mem_cons_self _ _, Or.inl ⟨by decide, by decide⟩⟩
  exact ⟨h.1, h.2.1⟩

theorem createJobFromItem_groups (deps : SubmitDeps) (req : JobSubmitRequest)
    (owner : String) (groups : List String) (i : Nat) (item : JobSubmitRequestItem)
    (j : Job) (h : createJobFromItem deps req owner groups i item = .ok j) :
    j.queueOwnershipUserGroups = groups := by
  unfold createJobFromItem at h
  by_cases h1 : (item.podSpec.isSome && !item.podSpecs.isEmpty) = true
  · rw [if_pos h1] at h
    exact Except.noConfusion h
  · rw [if_neg h1] at h
    by_cases h2 : item.getAllPodSpecs.isEmpty = true
    · rw [if_pos h2] at h
      exact Except.noConfusion h
    · rw [if_neg h2] at h
      cases hv : validateJobSubmitRequestItem item with
      | some e =>
        rw [hv] at h
        exact Except.noConfusion h
      | none =>
        rw [hv] at h
        cases htp : transformPods deps item.requiredNodeLabels item.getAllPodSpecs with
        | error e =>
          rw [htp] at h
          exact Except.noConfusion h
        | ok pods =>
          rw [htp] at h
          have h2 := Except.ok.inj h
          rw [← h2]

theorem createJobsLoop_groups (deps : SubmitDeps) (req : JobSubmitRequest)
    (owner : String) (groups : List String) :
    ∀ (items : List JobSubmitRequestItem) (i : Nat) (jobs : List Job),
    createJobsLoop deps req owner groups items i = .ok jobs →
    ∀ j ∈ jobs, j.queueOwnershipUserGroups = groups := by
  intro items
  induction items with
  | nil =>
    intro i jobs h j hj
    unfold createJobsLoop at h
    cases h
    cases hj
  | cons head rest ih =>
    intro i jobs h j hj
    unfold createJobsLoop at h
    cases hhead : createJobFromItem deps req owner groups i head with
    | error e =>
      rw [hhead] at h
      cases h
    | ok jh =>
      rw [hhead] at h
      cases hrest : createJobsLoop deps req owner groups rest (i + 1) with
      | error e =>
        rw [hrest] at h
        cases h
      | ok js =>
        rw [hrest] at h
        cases h
        cases hj with
        | head => exact createJobFromItem_groups deps req owner groups i head j hhead
        | tail _ hj' => exact ih (i + 1) js hrest j hj'

theorem createJobsObjects_groups (deps : SubmitDeps) (req : JobSubmitRequest)
    (owner : String) (groups : List String) (jobs : List Job)
    (h : createJobsObjects deps req owner groups = .ok jobs) :
    ∀ j ∈ jobs, j.queueOwnershipUserGroups = groups := by
  unfold createJobsObjects at h
  by_cases hjs : req.jobSetId = ""
  · rw [if_pos hjs] at h
    cases h
  · rw [if_neg hjs] at h
    by_cases hq : req.queue = ""
    · rw [if_pos hq] at h
      cases h
    · rw [if_neg hq] at h
      exact createJobsLoop_groups deps req owner groups req.jobRequestItems 0 jobs h

theorem computeOwnershipGroups_eq (q : Queue) (p : Principal) :
    computeOwnershipGroups q p =
      if q.hasPermission ⟨.user, p.name⟩ .submit then []
      else p.groups.filter (fun g => q.hasPermission ⟨.group, g⟩ .submit) := by
  unfold computeOwnershipGroups
  split
  · rfl
  · have haux : ∀ (gs : List String) (acc : List String),
        ((gs.map (fun g => (⟨.group, g⟩ : PermissionSubject))).foldl
          (fun acc subject =>
            if q.hasPermission subject .submit then acc ++ [subject.name] else acc) acc)
        = acc ++ gs.filter (fun g => q.hasPermission ⟨.group, g⟩ .submit) := by
      intro gs
      induction gs with
      | nil => intro acc; simp
      | cons g rest ihg =>
        intro acc
        by_cases hg : q.hasPermission ⟨.group, g⟩ .submit
        · simp [hg, ihg]
        · simp [hg, ihg]
    simp [newPermissionSubjectsFromOwners, haux]

theorem submitJobsReport_addJobs_mem (oracles : SubmitOracles) (repo : QueueRepo)
    (respItems : List JobSubmitResponseItem) (failures : List (Job × List Char))
    (duplicates : List SubmitJobResult) (created : List Job) (jobs : List Job) :
    SubmitEffect.addJobs jobs ∈
      (submitJobsReport oracles repo respItems failures duplicates created jobs).effects := by
  unfold submitJobsReport
  repeat' split
  all_goals simp

/-- Claim C9: on an authorized request whose jobs are created, the
ownership groups stamped on every created job are empty when the queue
grants submit to the caller directly as a user-kind subject, and otherwise
are exactly the caller groups granted the submit verb; and those jobs are
the ones handed to the job store. -/
theorem submitJobs_c9 (checker : PrincipalPermissionChecker)
    (cfg : QueueManagementConfig) (deps : SubmitDeps) (oracles : SubmitOracles)
    (repo : QueueRepo) (p : Principal) (q : Queue) (req : JobSubmitRequest)
    (jobs : List Job) (hfound : repo req.queue = some q)
    (hauth : userHasPermission checker p .submitAnyJobs = true ∨
      (principalSubjects p).any (fun s => q.hasPermission s .submit) = true)
    (hcreate : createJobsObjects deps req p.name (computeOwnershipGroups q p) = .ok jobs)
    (hsched : oracles.schedulingInfoErr = none)
    (hfeas : oracles.validateJobsCanBeScheduled jobs = none)
    (hrep : oracles.reportSubmittedErr = none) :
    SubmitEffect.addJobs jobs ∈ (SubmitJobs checker cfg deps oracles repo p req).effects
    ∧ ∀ j ∈ jobs, j.queueOwnershipUserGroups =
        (if q.hasPermission ⟨.user, p.name⟩ .submit then []
         else p.groups.filter (fun g => q.hasPermission ⟨.group, g⟩ .submit)) := by
  constructor
  · rw [SubmitJobs_found checker cfg deps oracles repo p q req hfound hauth]
    unfold submitJobsAuthorized
    simp only [hcreate, hsched, hfeas]
    unfold submitJobsWrite
    simp only [hrep]
    cases hadd : oracles.addJobs jobs with
    | error e =>
      cases hfail : oracles.reportFailedErr <;> simp [hadd, hfail]
    | ok results =>
      simp only [hadd]
      exact submitJobsReport_addJobs_mem oracles repo _ _ _ _ jobs
  · intro j hj
    rw [← computeOwnershipGroups_eq q p]
    exact createJobsObjects_groups deps req p.name (computeOwnershipGroups q p) jobs hcreate j hj

/-- Witness for C9: caller anna in group admins, a queue granting submit
to group admins, one valid single-pod item; the persisted job carries
ownership groups admins. -/
theorem submitJobs_c9_w :
    SubmitEffect.addJobs
        [⟨"01", "c1", "q1", "js", "default", [], [], [], [], [], 0, some ⟨[], [], []⟩,
          [], 0, "anna", ["admins"]⟩] ∈
      (SubmitJobs ⟨fun _ => [], fun _ => [], fun _ => []⟩ ⟨false, 1⟩
        ⟨fun _ => none, [], [], 0, fun _ => "01"⟩
        ⟨none, fun _ => none, fun _ => .ok [], none, none, none, none⟩
        (fun n => if n = "q1" then
          some ⟨"q1", 1, [], [⟨[⟨.group, "admins"⟩], [.submit]⟩]⟩ else none)
        ⟨"anna", ["admins"], [], []⟩
        ⟨"q1", "js", [⟨0, "", "c1", [], [], [], some ⟨[], [], []⟩, [], [], []⟩]⟩).effects
    ∧ ∀ j ∈ [(⟨"01", "c1", "q1", "js", "default", [], [], [], [], [], 0, some ⟨[], [], []⟩,
          [], 0, "anna", ["admins"]⟩ : Job)],
        j.queueOwnershipUserGroups = ["admins"] := by
  have h := submitJobs_c9 ⟨fun _ => [], fun _ => [], fun _ => []⟩ ⟨false, 1⟩
    ⟨fun _ => none, [], [], 0, fun _ => "01"⟩
    ⟨none, fun _ => none, fun _ => .ok [], none, none, none, none⟩
    (fun n => if n = "q1" then
      some ⟨"q1", 1, [], [⟨[⟨.group, "admins"⟩], [.submit]⟩]⟩ else none)
    ⟨"anna", ["admins"], [], []⟩
    ⟨"q1", 1, [], [⟨[⟨.group, "admins"⟩], [.submit]⟩]⟩
    ⟨"q1", "js", [⟨0, "", "c1", [], [], [], some ⟨[], [], []⟩, [], [], []⟩]⟩
    [⟨"01", "c1", "q1", "js", "default", [], [], [], [], [], 0, some ⟨[], [], []⟩,
      [], 0, "anna", ["admins"]⟩]
    (by decide) (Or.inr (by decide)) (by decide) rfl rfl rfl
  exact ⟨h.1, fun j hj => (h.2 j hj).trans (by decide)⟩

/-! ## Lemmas about label enrichment (enrichText)

A label or annotation value is decomposed into tokens: literal chunks,
placeholder occurrences and escaped occurrences.  flatRaw renders the
tokens into the raw value the caller submits; flatSpec renders them the
way the spec says the stored value must read.  The enrichment chain is
proved to map one to the other whenever the literal chunks contain no
opening brace and no backslash (so that no occurrence spans a token
boundary and no chunk collides with the internal sentinel). -/

theorem replaceAll_nil (patt rep : List Char) : replaceAll patt rep [] = [] := by
  rw [replaceAll]

theorem replaceAll_cons_no (patt rep : List Char) (c : Char) (s : List Char)
    (h : patt.isPrefixOf (c :: s) = false) :
    replaceAll patt rep (c :: s) = c :: replaceAll patt rep s := by
  rw [replaceAll, dif_neg]
  simp [h]

theorem replaceAll_cons_yes (patt rep : List Char) (c : Char) (s : List Char)
    (hne : patt ≠ []) (h : patt.isPrefixOf (c :: s) = true) :
    replaceAll patt rep (c :: s) =
      rep ++ replaceAll patt rep ((c :: s).drop patt.length) := by
  rw [replaceAll, dif_pos ⟨hne, h⟩]

theorem isPrefixOf_append_self (l r : List Char) : l.isPrefixOf (l ++ r) = true := by
  induction l with
  | nil => simp [List.isPrefixOf]
  | cons c cs ih => simp [List.isPrefixOf, ih]

theorem replaceAll_pattern_head (patt rep rest : List Char) (hne : patt ≠ []) :
    replaceAll patt rep (patt ++ rest) = rep ++ replaceAll patt rep rest := by
  cases patt with
  | nil => exact absurd rfl hne
  | cons pc ps =>
    rw [List.cons_append,
      replaceAll_cons_yes (pc :: ps) rep pc (ps ++ rest) hne
        (by rw [← List.cons_append]; exact isPrefixOf_append_self _ _),
      ← List.cons_append, List.drop_left]

theorem replaceAll_skip_head (p0 : Char) (ps rep : List Char) :
    ∀ (l r : List Char), (∀ c ∈ l, c ≠ p0) →
    replaceAll (p0 :: ps) rep (l ++ r) = l ++ replaceAll (p0 :: ps) rep r := by
  intro l
  induction l with
  | nil => simp
  | cons c l' ih =>
    intro r hl
    have hc : c ≠ p0 := hl c (List.mem_cons_self c l')
    have hpre : (p0 :: ps).isPrefixOf (c :: (l' ++ r)) = false := by
      have hbeq : (p0 == c) = false := by
        simp [hc.symm]
      simp [List.isPrefixOf, hbeq]
    rw [List.cons_append, replaceAll_cons_no _ _ _ _ hpre,
      ih r (fun x hx => hl x (List.mem_cons_of_mem _ hx)), List.cons_append]

theorem replaceAll_spaceZ_skip :
    ∀ (l r : List Char), '\\' ∉ l → (∀ c, r.head? = some c → c ≠ '\\') →
    replaceAll spaceZ litJobId (l ++ r) = l ++ replaceAll spaceZ litJobId r := by
  intro l
  induction l with
  | nil =>
    intro r _ _
    simp
  | cons c l' ih =>
    intro r hl hr
    have hc : c ≠ '\\' := fun h => hl (h ▸ List.mem_cons_self c l')
    have hl' : '\\' ∉ l' := fun h => hl (List.mem_cons_of_mem _ h)
    have hpre : spaceZ.isPrefixOf (c :: (l' ++ r)) = false := by
      by_cases hsp : c = ' '
      · subst hsp
        cases l' with
        | nil =>
          cases hrr : r with
          | nil => rfl
          | cons r0 rs =>
            have hr0 : r0 ≠ '\\' := hr r0 (by rw [hrr]; rfl)
            have hbeq : (('\\' : Char) == r0) = false := by simp [Ne.symm hr0]
            simp [spaceZ, List.isPrefixOf, hbeq]
        | cons c1 l'' =>
          have hc1 : c1 ≠ '\\' := fun h => hl' (h ▸ List.mem_cons_self c1 l'')
          have hbeq : (('\\' : Char) == c1) = false := by simp [Ne.symm hc1]
          simp [spaceZ, List.isPrefixOf, hbeq]
      · have hbeq : ((' ' : Char) == c) = false := by simp [Ne.symm hsp]
        simp [spaceZ, List.isPrefixOf, hbeq]
    rw [List.cons_append, replaceAll_cons_no _ _ _ _ hpre, ih r hl' hr, List.cons_append]

theorem p1_lit (s rest : List Char) (h1 : '{' ∉ s) :
    replaceAll escPat spaceZ (s ++ rest) = s ++ replaceAll escPat spaceZ rest :=
  replaceAll_skip_head '{' ('{' :: 'J' :: 'o' :: 'b' :: 'I' :: 'd' :: '}' :: '}' :: [])
    spaceZ s rest (fun c hc he => h1 (he ▸ hc))

theorem p1_esc (rest : List Char) :
    replaceAll escPat spaceZ (escPat ++ rest) = spaceZ ++ replaceAll escPat spaceZ rest :=
  replaceAll_pattern_head escPat spaceZ rest (by decide)

theorem p1_ph (rest : List Char) :
    replaceAll escPat spaceZ (jobIdPat ++ rest) =
      jobIdPat ++ replaceAll escPat spaceZ rest := by
  have hne : (('{' : Char) == 'J') = false := by decide
  have hpre : escPat.isPrefixOf ('{' :: (('J' :: 'o' :: 'b' :: 'I' :: 'd' :: '}' :: []) ++ rest))
      = false := by
    simp [escPat, jobIdPat, List.isPrefixOf, hne]
  show replaceAll escPat spaceZ
      ('{' :: (('J' :: 'o' :: 'b' :: 'I' :: 'd' :: '}' :: []) ++ rest)) =
    '{' :: (('J' :: 'o' :: 'b' :: 'I' :: 'd' :: '}' :: []) ++ replaceAll escPat spaceZ rest)
  rw [replaceAll_cons_no _ _ _ _ hpre]
  exact congrArg (fun x => '{' :: x)
    (replaceAll_skip_head '{' ('{' :: 'J' :: 'o' :: 'b' :: 'I' :: 'd' :: '}' :: '}' :: [])
      spaceZ ('J' :: 'o' :: 'b' :: 'I' :: 'd' :: '}' :: []) rest (by decide))

theorem p2_lit (jid : List Char) (s rest : List Char) (h1 : '{' ∉ s) :
    replaceAll jobIdPat jid (s ++ rest) = s ++ replaceAll jobIdPat jid rest :=
  replaceAll_skip_head '{' ('J' :: 'o' :: 'b' :: 'I' :: 'd' :: '}' :: [])
    jid s rest (fun c hc he => h1 (he ▸ hc))

theorem p2_sentinel (jid : List Char) (rest : List Char) :
    replaceAll jobIdPat jid (spaceZ ++ rest) = spaceZ ++ replaceAll jobIdPat jid rest :=
  replaceAll_skip_head '{' ('J' :: 'o' :: 'b' :: 'I' :: 'd' :: '}' :: [])
    jid spaceZ rest (by decide)

theorem p2_ph (jid : List Char) (rest : List Char) :
    replaceAll jobIdPat jid (jobIdPat ++ rest) = jid ++ replaceAll jobIdPat jid rest :=
  replaceAll_pattern_head jobIdPat jid rest (by decide)

theorem p3_esc (rest : List Char) :
    replaceAll spaceZ litJobId (spaceZ ++ rest) =
      litJobId ++ replaceAll spaceZ litJobId rest :=
  replaceAll_pattern_head spaceZ litJobId rest (by decide)

theorem flat2_head (jid : List Char) (hjid : '\\' ∉ jid) :
    ∀ ts, goodToks ts → ∀ c, (flat2 jid ts).head? = some c → c ≠ '\\' := by
  intro ts
  induction ts with
  | nil =>
    intro _ c hc
    exact Option.noConfusion hc
  | cons t ts ih =>
    intro hg c hc
    have hg' : goodToks ts := fun x hx => hg x (List.mem_cons_of_mem _ hx)
    cases t with
    | lit s =>
      cases hs0 : s with
      | nil =>
        apply ih hg' c
        rw [hs0] at hc
        simpa [flat2] using hc
      | cons c0 s' =>
        have hs : goodTok (.lit s) := hg _ (List.mem_cons_self _ _)
        have hc0 : c = c0 := by
          rw [hs0] at hc
          simp [flat2] at hc
          exact hc.symm
        rw [hc0]
        intro hb
        exact hs.2 (by rw [hs0, hb]; exact List.mem_cons_self _ _)
    | placeholder =>
      cases hj0 : jid with
      | nil =>
        subst hj0
        apply ih hg' c
        simpa [flat2] using hc
      | cons j0 js =>
        have hc0 : c = j0 := by
          rw [hj0] at hc
          simp [flat2] at hc
          exact hc.symm
        rw [hc0]
        intro hb
        exact hjid (by rw [hj0, hb]; exact List.mem_cons_self _ _)
    | escaped =>
      have hc0 : c = ' ' := by
        simp [flat2, spaceZ] at hc
        exact hc.symm
      rw [hc0]
      decide

theorem replaceAll_pass1 (ts : List EnrichTok) (hg : goodToks ts) :
    replaceAll escPat spaceZ (flatRaw ts) = flat1 ts := by
  induction ts with
  | nil => exact replaceAll_nil _ _
  | cons t ts ih =>
    have hg' : goodToks ts := fun x hx => hg x (List.mem_cons_of_mem _ hx)
    cases t with
    | lit s =>
      have hs : goodTok (.lit s) := hg _ (List.mem_cons_self _ _)
      show replaceAll escPat spaceZ (s ++ flatRaw ts) = s ++ flat1 ts
      rw [p1_lit s (flatRaw ts) hs.1, ih hg']
    | placeholder =>
      show replaceAll escPat spaceZ (jobIdPat ++ flatRaw ts) = jobIdPat ++ flat1 ts
      rw [p1_ph (flatRaw ts), ih hg']
    | escaped =>
      show replaceAll escPat spaceZ (escPat ++ flatRaw ts) = spaceZ ++ flat1 ts
      rw [p1_esc (flatRaw ts), ih hg']

theorem replaceAll_pass2 (jid : List Char) (ts : List EnrichTok) (hg : goodToks ts) :
    replaceAll jobIdPat jid (flat1 ts) = flat2 jid ts := by
  induction ts with
  | nil => exact replaceAll_nil _ _
  | cons t ts ih =>
    have hg' : goodToks ts := fun x hx => hg x (List.mem_cons_of_mem _ hx)
    cases t with
    | lit s =>
      have hs : goodTok (.lit s) := hg _ (List.mem_cons_self _ _)
      show replaceAll jobIdPat jid (s ++ flat1 ts) = s ++ flat2 jid ts
      rw [p2_lit jid s (flat1 ts) hs.1, ih hg']
    | placeholder =>
      show replaceAll jobIdPat jid (jobIdPat ++ flat1 ts) = jid ++ flat2 jid ts
      rw [p2_ph jid (flat1 ts), ih hg']
    | escaped =>
      show replaceAll jobIdPat jid (spaceZ ++ flat1 ts) = spaceZ ++ flat2 jid ts
      rw [p2_sentinel jid (flat1 ts), ih hg']

theorem replaceAll_pass3 (jid : List Char) (hjid : '\\' ∉ jid) (ts : List EnrichTok)
    (hg : goodToks ts) :
    replaceAll spaceZ litJobId (flat2 jid ts) = flatSpec jid ts := by
  induction ts with
  | nil => exact replaceAll_nil _ _
  | cons t ts ih =>
    have hg' : goodToks ts := fun x hx => hg x (List.mem_cons_of_mem _ hx)
    cases t with
    | lit s =>
      have hs : goodTok (.lit s) := hg _ (List.mem_cons_self _ _)
      show replaceAll spaceZ litJobId (s ++ flat2 jid ts) = s ++ flatSpec jid ts
      rw [replaceAll_spaceZ_skip s (flat2 jid ts) hs.2 (flat2_head jid hjid ts hg'),
        ih hg']
    | placeholder =>
      show replaceAll spaceZ litJobId (jid ++ flat2 jid ts) = jid ++ flatSpec jid ts
      rw [replaceAll_spaceZ_skip jid (flat2 jid ts) hjid (flat2_head jid hjid ts hg'),
        ih hg']
    | escaped =>
      show replaceAll spaceZ litJobId (spaceZ ++ flat2 jid ts) = litJobId ++ flatSpec jid ts
      rw [p3_esc (flat2 jid ts), ih hg']

theorem enrichValue_spec (jid : List Char) (hjid : '\\' ∉ jid) (ts : List EnrichTok)
    (hg : goodToks ts) : enrichValue jid (flatRaw ts) = flatSpec jid ts := by
  unfold enrichValue
  rw [replaceAll_pass1 ts hg, replaceAll_pass2 jid ts hg, replaceAll_pass3 jid hjid ts hg]

/-- Claim C6: for every label or annotation map whose values decompose
into clean tokens, enrichText leaves every key unchanged and rewrites
every value by substituting the minted job id for each placeholder
occurrence and the verbatim letters JobId for each escaped occurrence. -/
theorem enrichText_c6 (m : List (String × List EnrichTok)) (jobId : String)
    (hjid : '\\' ∉ jobId.data) (hgood : ∀ kv ∈ m, goodToks kv.2) :
    enrichText (m.map (fun kv => (kv.1, String.mk (flatRaw kv.2)))) jobId =
      m.map (fun kv => (kv.1, String.mk (flatSpec jobId.data kv.2))) := by
  unfold enrichText
  rw [List.map_map]
  apply List.map_congr_left
  intro kv hkv
  show (kv.1, String.mk (enrichValue jobId.data (String.mk (flatRaw kv.2)).data)) = _
  rw [show (String.mk (flatRaw kv.2)).data = flatRaw kv.2 from rfl,
    enrichValue_spec jobId.data hjid kv.2 (hgood kv hkv)]

/-- Witness for C6: the value pre-PLACEHOLDER-mid-ESCAPE with job id 01HX
becomes pre-01HX-mid-JobId, the key untouched. -/
theorem enrichText_c6_w :
    enrichText [("app", String.mk (flatRaw
        [.lit ['p', 'r', 'e', '-'], .placeholder, .lit ['-', 'm', 'i', 'd', '-'], .escaped]))]
        "01HX"
      = [("app", String.mk (flatSpec ("01HX").data
        [.lit ['p', 'r', 'e', '-'], .placeholder, .lit ['-', 'm', 'i', 'd', '-'], .escaped]))]
    ∧ flatRaw [.lit ['p', 'r', 'e', '-'], .placeholder,
        .lit ['-', 'm', 'i', 'd', '-'], .escaped]
      = ['p', 'r', 'e', '-'] ++ jobIdPat ++ ['-', 'm', 'i', 'd', '-'] ++ escPat
    ∧ flatSpec ("01HX").data [.lit ['p', 'r', 'e', '-'], .placeholder,
        .lit ['-', 'm', 'i', 'd', '-'], .escaped]
      = ('p' :: 'r' :: 'e' :: '-' :: '0' :: '1' :: 'H' :: 'X' ::
          '-' :: 'm' :: 'i' :: 'd' :: '-' :: 'J' :: 'o' :: 'b' :: 'I' :: 'd' :: []) := by
  refine ⟨?_, by decide, by decide⟩
  exact enrichText_c6
    [("app", [.lit ['p', 'r', 'e', '-'], .placeholder, .lit ['-', 'm', 'i', 'd', '-'], .escaped])]
    "01HX" (by decide) (by decide)

end Armada
